import Mathlib

/-!
# Formal model of the CRYPT on-chain core

Shallow embedding of the two Solidity contracts of this repository:

* `GiftCardNFT` (an ERC-721 token holding an ERC-20 vault per token id), and
* `Marketplace` (artist-design listings and gift-card resale listings).

Addresses are natural numbers, `0` being the zero address.  Machine words
(`uint256`) are modelled as `Nat`; none of the contract arithmetic can
overflow a 256-bit word within the quantities the theorems use, and
Solidity 0.8 reverts on overflow anyway, so `Nat` arithmetic is faithful
on the non-reverting executions modelled here.

The OpenZeppelin library functions the contracts call (`ERC721.ownerOf`,
`ERC721.transferFrom`, `ERC721.approve`, `ERC721.setApprovalForAll`,
`ERC721URIStorage.tokenURI`, `ERC20.transfer/transferFrom`, `SafeERC20`)
are modelled from the library the source imports (OpenZeppelin v5: the
`Ownable(msg.sender)` constructor call in both contracts pins the major
version); in particular `tokenURI` and `ownerOf` revert with
`ERC721NonexistentToken` for an unminted id, and `transferFrom` clears the
per-token approval.

A Solidity `revert` aborts the whole transaction and rolls every state
write back; `step` returns `Except Err ChainState` and `exec` realises the
rollback by returning the pre-state on error.
-/

namespace Crypt

/-- The ERC-20 vault stored per gift card
(struct `TokenVault` of `GiftCardNFT`). -/
structure TokenVault where
  tokenAddress : Nat
  amount : Nat
  liquidated : Bool
  deriving DecidableEq

/-- Struct `ArtistListing` of `Marketplace`. -/
structure ArtistListing where
  listingId : Nat
  artist : Nat
  ipfsHash : String
  price : Nat
  active : Bool
  deriving DecidableEq

/-- Struct `GiftCardListing` of `Marketplace`. -/
structure GiftCardListing where
  listingId : Nat
  tokenId : Nat
  seller : Nat
  price : Nat
  active : Bool
  deriving DecidableEq

/-- `listing.active = false` on an artist listing. -/
def deactivateArtist (l : ArtistListing) : ArtistListing :=
  ⟨l.listingId, l.artist, l.ipfsHash, l.price, false⟩

/-- `listing.active = false` on a gift-card listing. -/
def deactivateGiftCard (l : GiftCardListing) : GiftCardListing :=
  ⟨l.listingId, l.tokenId, l.seller, l.price, false⟩

/-- Records emitted by the two contracts (Solidity events). -/
inductive Event where
  | GiftCardCreated (tokenId creator tokenAddress amount : Nat)
  | GiftCardLiquidated (tokenId owner amount : Nat)
  | ArtistListingCreated (listingId artist price : Nat)
  | ArtistDesignPurchased (listingId buyer artist : Nat)
  | GiftCardListed (listingId tokenId price : Nat)
  | GiftCardSold (listingId tokenId buyer : Nat)
  | ListingCancelled (listingId : Nat) (listingType : String)
  deriving DecidableEq

/-- Error taxonomy: the custom errors declared by the two contracts plus
the OpenZeppelin ERC-721 errors and the EVM-level conditions the model
makes explicit. -/
inductive Err where
  | InvalidTokenAddress
  | InsufficientBalance
  | NotTokenOwner
  | AlreadyLiquidated
  | TransferFailed
  | InvalidListing
  | InsufficientPayment
  | NotSeller
  | NotApproved
  | ERC721NonexistentToken
  | ERC721InsufficientApproval
  | ERC721IncorrectOwner
  | ERC721InvalidReceiver
  | ERC721InvalidSender
  | ERC721InvalidApprover
  | ERC721InvalidOperator
  | InsufficientNativeBalance
  | InvalidCaller
  deriving DecidableEq

/-- Address of the deployed `GiftCardNFT` contract. -/
def nftAddr : Nat := 1

/-- Address of the deployed `Marketplace` contract. -/
def marketAddr : Nat := 2

/-- The combined ledger state: ERC-20 balances/allowances (keyed by the
token contract address), native-currency balances, the `GiftCardNFT`
storage, and the `Marketplace` storage.  `acceptsEth a` abstracts whether
a plain value transfer (`.call{value: _}("")`) to `a` succeeds — an
externally-owned account accepts, a contract may reject. -/
structure ChainState where
  erc20Bal : Nat × Nat → Nat
  erc20Allow : Nat × Nat × Nat → Nat
  ethBal : Nat → Nat
  acceptsEth : Nat → Bool
  nftOwner : Nat → Nat
  nftTokenApproval : Nat → Nat
  nftOperator : Nat × Nat → Bool
  nftTokenURI : Nat → String
  vaults : Nat → TokenVault
  tokenIdCounter : Nat
  artistListings : Nat → ArtistListing
  giftCardListings : Nat → GiftCardListing
  artistListingCounter : Nat
  giftCardListingCounter : Nat
  events : List Event

/-- Move `amt` units of an ERC-20 balance map entry from `frm` to `dst`
(sequential update, correct also when `frm = dst`). -/
def moveToken (b : Nat × Nat → Nat) (token frm dst amt : Nat) : Nat × Nat → Nat :=
  let b1 := Function.update b (token, frm) (b (token, frm) - amt)
  Function.update b1 (token, dst) (b1 (token, dst) + amt)

/-- Move `amt` of native currency from `frm` to `dst`. -/
def moveEth (b : Nat → Nat) (frm dst amt : Nat) : Nat → Nat :=
  let b1 := Function.update b frm (b frm - amt)
  Function.update b1 dst (b1 dst + amt)

/-- OpenZeppelin `ERC20.transferFrom` wrapped in `SafeERC20`: spends the
spender's allowance and moves the balance; any failure reverts. -/
def erc20TransferFrom (s : ChainState) (token frm spender dst amt : Nat) :
    Except Err ChainState :=
  if s.erc20Allow (token, frm, spender) < amt then .error .TransferFailed
  else if s.erc20Bal (token, frm) < amt then .error .TransferFailed
  else .ok { s with
    erc20Allow := Function.update s.erc20Allow (token, frm, spender)
      (s.erc20Allow (token, frm, spender) - amt),
    erc20Bal := moveToken s.erc20Bal token frm dst amt }

/-- OpenZeppelin `ERC20.transfer` wrapped in `SafeERC20`. -/
def erc20Transfer (s : ChainState) (token frm dst amt : Nat) :
    Except Err ChainState :=
  if s.erc20Bal (token, frm) < amt then .error .TransferFailed
  else .ok { s with erc20Bal := moveToken s.erc20Bal token frm dst amt }

/-- EVM value transfer happening when a payable function is entered:
`msg.value` moves from the caller to the callee contract. -/
def payIn (s : ChainState) (caller value : Nat) : Except Err ChainState :=
  if s.ethBal caller < value then .error .InsufficientNativeBalance
  else .ok { s with ethBal := moveEth s.ethBal caller marketAddr value }

/-- A low-level `dst.call{value: amt}("")`: returns the updated state on
success, `none` when the destination rejects the value (or the balance is
short) — the Solidity caller then inspects the returned flag. -/
def sendValue (s : ChainState) (frm dst amt : Nat) : Option ChainState :=
  if s.acceptsEth dst = true ∧ amt ≤ s.ethBal frm then
    some { s with ethBal := moveEth s.ethBal frm dst amt }
  else none

/-- OpenZeppelin `ERC721.ownerOf`: reverts for an unminted token. -/
def ownerOf (s : ChainState) (tokenId : Nat) : Except Err Nat :=
  if s.nftOwner tokenId = 0 then .error .ERC721NonexistentToken
  else .ok (s.nftOwner tokenId)

/-- OpenZeppelin `ERC721._isAuthorized` over the operator-approval and
token-approval maps. -/
def nftIsAuthorized (opMap : Nat × Nat → Bool) (apMap : Nat → Nat)
    (owner spender tokenId : Nat) : Bool :=
  decide (spender ≠ 0) &&
    (decide (owner = spender) || opMap (owner, spender) ||
      decide (apMap tokenId = spender))

/-- OpenZeppelin `ERC721.transferFrom` as called with `msg.sender =
spender`: receiver must be nonzero, the spender must be owner, operator,
or per-token approved, the declared `frm` must be the actual owner; the
per-token approval is cleared and ownership moves to `dst`. -/
def nftTransferFrom (s : ChainState) (spender frm dst tokenId : Nat) :
    Except Err ChainState :=
  if dst = 0 then .error .ERC721InvalidReceiver
  else if nftIsAuthorized s.nftOperator s.nftTokenApproval
      (s.nftOwner tokenId) spender tokenId = false then
    (if s.nftOwner tokenId = 0 then .error .ERC721NonexistentToken
     else .error .ERC721InsufficientApproval)
  else if s.nftOwner tokenId ≠ frm then .error .ERC721IncorrectOwner
  else .ok { s with
    nftTokenApproval := Function.update s.nftTokenApproval tokenId 0,
    nftOwner := Function.update s.nftOwner tokenId dst }

/-- OpenZeppelin `ERC721.approve` called by `caller`. -/
def nftApprove (s : ChainState) (caller dst tokenId : Nat) :
    Except Err ChainState :=
  if s.nftOwner tokenId = 0 then .error .ERC721NonexistentToken
  else if s.nftOwner tokenId ≠ caller ∧
      s.nftOperator (s.nftOwner tokenId, caller) = false then
    .error .ERC721InvalidApprover
  else .ok { s with
    nftTokenApproval := Function.update s.nftTokenApproval tokenId dst }

/-- OpenZeppelin `ERC721.setApprovalForAll` called by `caller`. -/
def nftSetApprovalForAll (s : ChainState) (caller op : Nat) (approved : Bool) :
    Except Err ChainState :=
  if op = 0 then .error .ERC721InvalidOperator
  else .ok { s with
    nftOperator := Function.update s.nftOperator (caller, op) approved }

/-- `GiftCardNFT.createGiftCard` (src/unnamed/part_001 lines 54–84):
checks the token address, a nonzero amount and the depositor's balance,
pulls the deposit via `safeTransferFrom`, then mints the next sequential
token id to the caller (`_safeMint` reverts for a zero receiver or an
already-minted id), stores the metadata URI and the vault record, and
emits `GiftCardCreated`. -/
def createGiftCard (s : ChainState) (caller : Nat) (metadataURI : String)
    (tokenAddress tokenAmount : Nat) : Except Err (ChainState × Nat) :=
  if tokenAddress = 0 then .error .InvalidTokenAddress
  else if tokenAmount = 0 then .error .InsufficientBalance
  else if s.erc20Bal (tokenAddress, caller) < tokenAmount then
    .error .InsufficientBalance
  else
    match erc20TransferFrom s tokenAddress caller nftAddr nftAddr tokenAmount with
    | .error e => .error e
    | .ok s1 =>
      if caller = 0 then .error .ERC721InvalidReceiver
      else if s1.nftOwner s1.tokenIdCounter ≠ 0 then .error .ERC721InvalidSender
      else
        .ok ({ s1 with
          nftOwner := Function.update s1.nftOwner s1.tokenIdCounter caller,
          nftTokenURI := Function.update s1.nftTokenURI s1.tokenIdCounter metadataURI,
          vaults := Function.update s1.vaults s1.tokenIdCounter
            ⟨tokenAddress, tokenAmount, false⟩,
          tokenIdCounter := s1.tokenIdCounter + 1,
          events := .GiftCardCreated s1.tokenIdCounter caller tokenAddress tokenAmount
            :: s1.events }, s1.tokenIdCounter)

/-- `GiftCardNFT.liquidate` (src/unnamed/part_001 lines 90–102): only the
current owner may liquidate, only once; the `liquidated` flag is set
before the payout (the state passed to `erc20Transfer` already carries
`liquidated = true`), then the stored amount of the stored ERC-20 is paid
to the caller and `GiftCardLiquidated` is emitted. -/
def liquidate (s : ChainState) (caller tokenId : Nat) : Except Err ChainState :=
  match ownerOf s tokenId with
  | .error e => .error e
  | .ok owner =>
    if owner ≠ caller then .error .NotTokenOwner
    else if (s.vaults tokenId).liquidated = true then .error .AlreadyLiquidated
    else
      let s1 : ChainState :=
        { s with vaults := Function.update s.vaults tokenId
                    ⟨(s.vaults tokenId).tokenAddress, (s.vaults tokenId).amount, true⟩ }
      match erc20Transfer s1
          (s.vaults tokenId).tokenAddress nftAddr caller (s.vaults tokenId).amount with
      | .error e => .error e
      | .ok s2 => .ok { s2 with
          events := .GiftCardLiquidated tokenId caller (s.vaults tokenId).amount
            :: s2.events }

/-- `GiftCardNFT.getVaultContents` (src/unnamed/part_001 lines 109–111):
a plain mapping read — total, returns the zero-value struct for an
unknown id. -/
def getVaultContents (s : ChainState) (tokenId : Nat) : TokenVault :=
  s.vaults tokenId

/-- `GiftCardNFT.getMetadataURI` (src/unnamed/part_001 lines 118–120):
returns `tokenURI(tokenId)`; OpenZeppelin `ERC721URIStorage.tokenURI`
reverts with `ERC721NonexistentToken` for an unminted id. -/
def getMetadataURI (s : ChainState) (tokenId : Nat) : Except Err String :=
  if s.nftOwner tokenId = 0 then .error .ERC721NonexistentToken
  else .ok (s.nftTokenURI tokenId)

/-- `Marketplace.createArtistListing` (src/contracts/Marketplace.sol
lines 79–99). -/
def createArtistListing (s : ChainState) (caller : Nat) (ipfsHash : String)
    (price : Nat) : Except Err (ChainState × Nat) :=
  if ipfsHash = "" then .error .InvalidListing
  else if price = 0 then .error .InvalidListing
  else
    .ok ({ s with
      artistListings := Function.update s.artistListings s.artistListingCounter
        ⟨s.artistListingCounter, caller, ipfsHash, price, true⟩,
      artistListingCounter := s.artistListingCounter + 1,
      events := .ArtistListingCreated s.artistListingCounter caller price
        :: s.events }, s.artistListingCounter)

/-- `Marketplace.purchaseArtistDesign` (src/contracts/Marketplace.sol
lines 106–126): payable; checks the listing is active and `msg.value`
covers the price, deactivates the listing, then forwards the whole
`msg.value` to the artist (reverting with `TransferFailed` if the call
fails), emits, and returns the stored `ipfsHash`. -/
def purchaseArtistDesign (s : ChainState) (caller value listingId : Nat) :
    Except Err (ChainState × String) :=
  match payIn s caller value with
  | .error e => .error e
  | .ok s1 =>
    if (s1.artistListings listingId).active = false then .error .InvalidListing
    else if value < (s1.artistListings listingId).price then
      .error .InsufficientPayment
    else
      let s2 : ChainState :=
        { s1 with artistListings := Function.update s1.artistListings listingId
                      (deactivateArtist (s1.artistListings listingId)) }
      match sendValue s2 marketAddr (s1.artistListings listingId).artist value with
      | none => .error .TransferFailed
      | some s3 => .ok ({ s3 with
          events := .ArtistDesignPurchased listingId caller
            (s1.artistListings listingId).artist :: s3.events },
          (s1.artistListings listingId).ipfsHash)

/-- `Marketplace.cancelArtistListing` (src/contracts/Marketplace.sol
lines 132–141): the artist check precedes the active check. -/
def cancelArtistListing (s : ChainState) (caller listingId : Nat) :
    Except Err ChainState :=
  if (s.artistListings listingId).artist ≠ caller then .error .NotSeller
  else if (s.artistListings listingId).active = false then .error .InvalidListing
  else .ok { s with
    artistListings := Function.update s.artistListings listingId
      (deactivateArtist (s.artistListings listingId)),
    events := .ListingCancelled listingId "artist" :: s.events }

/-- `Marketplace.listGiftCard` (src/contracts/Marketplace.sol lines
149–173): the caller must own the token, the price must be nonzero, the
marketplace must hold the per-token approval; the token is pulled into
escrow and an active listing is stored at the next sequential id. -/
def listGiftCard (s : ChainState) (caller tokenId price : Nat) :
    Except Err (ChainState × Nat) :=
  match ownerOf s tokenId with
  | .error e => .error e
  | .ok owner =>
    if owner ≠ caller then .error .NotSeller
    else if price = 0 then .error .InvalidListing
    else if s.nftTokenApproval tokenId ≠ marketAddr then .error .NotApproved
    else
      match nftTransferFrom s marketAddr caller marketAddr tokenId with
      | .error e => .error e
      | .ok s1 =>
        .ok ({ s1 with
          giftCardListings := Function.update s1.giftCardListings
            s1.giftCardListingCounter
            ⟨s1.giftCardListingCounter, tokenId, caller, price, true⟩,
          giftCardListingCounter := s1.giftCardListingCounter + 1,
          events := .GiftCardListed s1.giftCardListingCounter tokenId price
            :: s1.events }, s1.giftCardListingCounter)

/-- `Marketplace.purchaseGiftCard` (src/contracts/Marketplace.sol lines
179–195): payable; active and payment checks, deactivate, transfer the
escrowed token to the buyer, forward the whole `msg.value` to the seller,
emit. -/
def purchaseGiftCard (s : ChainState) (caller value listingId : Nat) :
    Except Err ChainState :=
  match payIn s caller value with
  | .error e => .error e
  | .ok s1 =>
    if (s1.giftCardListings listingId).active = false then .error .InvalidListing
    else if value < (s1.giftCardListings listingId).price then
      .error .InsufficientPayment
    else
      let s2 : ChainState :=
        { s1 with giftCardListings := Function.update s1.giftCardListings listingId
                      (deactivateGiftCard (s1.giftCardListings listingId)) }
      match nftTransferFrom s2
          marketAddr marketAddr caller (s1.giftCardListings listingId).tokenId with
      | .error e => .error e
      | .ok s3 =>
        match sendValue s3 marketAddr (s1.giftCardListings listingId).seller value with
        | none => .error .TransferFailed
        | some s4 => .ok { s4 with
            events := .GiftCardSold listingId (s1.giftCardListings listingId).tokenId
              caller :: s4.events }

/-- `Marketplace.cancelGiftCardListing` (src/contracts/Marketplace.sol
lines 201–213): the seller check precedes the active check; deactivates
and returns the escrowed token to the seller. -/
def cancelGiftCardListing (s : ChainState) (caller listingId : Nat) :
    Except Err ChainState :=
  if (s.giftCardListings listingId).seller ≠ caller then .error .NotSeller
  else if (s.giftCardListings listingId).active = false then .error .InvalidListing
  else
    let s0 : ChainState :=
      { s with giftCardListings := Function.update s.giftCardListings listingId
                    (deactivateGiftCard (s.giftCardListings listingId)) }
    match nftTransferFrom s0
        marketAddr marketAddr caller (s.giftCardListings listingId).tokenId with
    | .error e => .error e
    | .ok s1 => .ok { s1 with
        events := .ListingCancelled listingId "giftcard" :: s1.events }

/-- The externally callable mutating operations of the two contracts
(the ERC-721 surface `GiftCardNFT` inherits included).  `safeTransferFrom`
differs from `transferFrom` only by the receiver hook, which is a no-op
for the externally-owned accounts modelled as callers, so a single
transfer operation covers both. -/
inductive Call where
  | createGiftCard (caller : Nat) (metadataURI : String) (tokenAddress tokenAmount : Nat)
  | liquidate (caller tokenId : Nat)
  | nftTransferFrom (caller frm dst tokenId : Nat)
  | nftApprove (caller dst tokenId : Nat)
  | nftSetApprovalForAll (caller op : Nat) (approved : Bool)
  | createArtistListing (caller : Nat) (ipfsHash : String) (price : Nat)
  | purchaseArtistDesign (caller value listingId : Nat)
  | cancelArtistListing (caller listingId : Nat)
  | listGiftCard (caller tokenId price : Nat)
  | purchaseGiftCard (caller value listingId : Nat)
  | cancelGiftCardListing (caller listingId : Nat)

/-- The originating externally-owned account of a call. -/
def Call.caller : Call → Nat
  | .createGiftCard c _ _ _ => c
  | .liquidate c _ => c
  | .nftTransferFrom c _ _ _ => c
  | .nftApprove c _ _ => c
  | .nftSetApprovalForAll c _ _ => c
  | .createArtistListing c _ _ => c
  | .purchaseArtistDesign c _ _ => c
  | .cancelArtistListing c _ => c
  | .listGiftCard c _ _ => c
  | .purchaseGiftCard c _ _ => c
  | .cancelGiftCardListing c _ => c

/-- One transaction: calls originate from externally-owned accounts
(never the zero address, never the two contracts themselves — neither
contract contains code calling into the public surface). Return values
are dropped; events record the observable effects. -/
def step (s : ChainState) (c : Call) : Except Err ChainState :=
  if c.caller = 0 ∨ c.caller = nftAddr ∨ c.caller = marketAddr then
    .error .InvalidCaller
  else match c with
  | .createGiftCard caller uri tok amt =>
      (createGiftCard s caller uri tok amt).map Prod.fst
  | .liquidate caller tokenId => liquidate s caller tokenId
  | .nftTransferFrom caller frm dst tokenId => nftTransferFrom s caller frm dst tokenId
  | .nftApprove caller dst tokenId => nftApprove s caller dst tokenId
  | .nftSetApprovalForAll caller op approved => nftSetApprovalForAll s caller op approved
  | .createArtistListing caller h price =>
      (createArtistListing s caller h price).map Prod.fst
  | .purchaseArtistDesign caller value listingId =>
      (purchaseArtistDesign s caller value listingId).map Prod.fst
  | .cancelArtistListing caller listingId => cancelArtistListing s caller listingId
  | .listGiftCard caller tokenId price =>
      (listGiftCard s caller tokenId price).map Prod.fst
  | .purchaseGiftCard caller value listingId => purchaseGiftCard s caller value listingId
  | .cancelGiftCardListing caller listingId => cancelGiftCardListing s caller listingId

/-- Transaction semantics with the EVM rollback: a reverting call leaves
the state (storage, balances, emitted records) exactly as it was. -/
def exec (s : ChainState) (c : Call) : ChainState :=
  match step s c with
  | .ok s' => s'
  | .error _ => s

/-- Run a sequence of transactions. -/
def execList (s : ChainState) (cs : List Call) : ChainState :=
  cs.foldl exec s

/-- A freshly deployed pair of contracts: empty NFT and marketplace
storage; ERC-20 balances and allowances, native balances and the
value-acceptance behaviour of external accounts are arbitrary. -/
def InitState (s : ChainState) : Prop :=
  s.nftOwner = (fun _ => 0) ∧
  s.nftTokenApproval = (fun _ => 0) ∧
  s.nftOperator = (fun _ => false) ∧
  s.vaults = (fun _ => ⟨0, 0, false⟩) ∧
  s.tokenIdCounter = 0 ∧
  s.artistListings = (fun _ => ⟨0, 0, "", 0, false⟩) ∧
  s.giftCardListings = (fun _ => ⟨0, 0, 0, 0, false⟩) ∧
  s.artistListingCounter = 0 ∧
  s.giftCardListingCounter = 0 ∧
  s.events = []

/-- States reachable from deployment by the public operations of the two
contracts. -/
inductive Reachable : ChainState → Prop where
  | init (s : ChainState) (h : InitState s) : Reachable s
  | step (s : ChainState) (c : Call) (h : Reachable s) : Reachable (exec s c)

/-! ## Success characterisations of the primitive operations -/

theorem payIn_ok_iff (s : ChainState) (caller value : Nat) (s' : ChainState) :
    payIn s caller value = .ok s' ↔
      value ≤ s.ethBal caller ∧
      s' = { s with ethBal := moveEth s.ethBal caller marketAddr value } := by
  unfold payIn
  split
  next hlt =>
    constructor
    · intro h; exact absurd h (by simp)
    · rintro ⟨hle, -⟩; omega
  next hge =>
    constructor
    · intro h
      refine ⟨by omega, ?_⟩
      injection h with h2
      exact h2.symm
    · rintro ⟨-, rfl⟩; rfl

theorem sendValue_some_iff (s : ChainState) (frm dst amt : Nat) (s' : ChainState) :
    sendValue s frm dst amt = some s' ↔
      s.acceptsEth dst = true ∧ amt ≤ s.ethBal frm ∧
      s' = { s with ethBal := moveEth s.ethBal frm dst amt } := by
  unfold sendValue
  split
  next hc =>
    constructor
    · intro h
      injection h with h2
      exact ⟨hc.1, hc.2, h2.symm⟩
    · rintro ⟨-, -, rfl⟩; rfl
  next hc =>
    constructor
    · intro h; exact absurd h (by simp)
    · rintro ⟨h1, h2, -⟩; exact absurd ⟨h1, h2⟩ hc

theorem erc20TransferFrom_ok_iff (s : ChainState) (token frm spender dst amt : Nat)
    (s' : ChainState) :
    erc20TransferFrom s token frm spender dst amt = .ok s' ↔
      amt ≤ s.erc20Allow (token, frm, spender) ∧ amt ≤ s.erc20Bal (token, frm) ∧
      s' = { s with
        erc20Allow := Function.update s.erc20Allow (token, frm, spender)
          (s.erc20Allow (token, frm, spender) - amt),
        erc20Bal := moveToken s.erc20Bal token frm dst amt } := by
  unfold erc20TransferFrom
  split
  next h1 =>
    constructor
    · intro h; exact absurd h (by simp)
    · rintro ⟨ha, -, -⟩; omega
  next h1 =>
    split
    next h2 =>
      constructor
      · intro h; exact absurd h (by simp)
      · rintro ⟨-, hb, -⟩; omega
    next h2 =>
      constructor
      · intro h
        injection h with h3
        exact ⟨by omega, by omega, h3.symm⟩
      · rintro ⟨-, -, rfl⟩; rfl

theorem erc20Transfer_ok_iff (s : ChainState) (token frm dst amt : Nat)
    (s' : ChainState) :
    erc20Transfer s token frm dst amt = .ok s' ↔
      amt ≤ s.erc20Bal (token, frm) ∧
      s' = { s with erc20Bal := moveToken s.erc20Bal token frm dst amt } := by
  unfold erc20Transfer
  split
  next h1 =>
    constructor
    · intro h; exact absurd h (by simp)
    · rintro ⟨hb, -⟩; omega
  next h1 =>
    constructor
    · intro h
      injection h with h2
      exact ⟨by omega, h2.symm⟩
    · rintro ⟨-, rfl⟩; rfl

theorem nftTransferFrom_ok_iff (s : ChainState) (spender frm dst tokenId : Nat)
    (s' : ChainState) :
    nftTransferFrom s spender frm dst tokenId = .ok s' ↔
      dst ≠ 0 ∧
      nftIsAuthorized s.nftOperator s.nftTokenApproval
        (s.nftOwner tokenId) spender tokenId = true ∧
      s.nftOwner tokenId = frm ∧
      s' = { s with
        nftTokenApproval := Function.update s.nftTokenApproval tokenId 0,
        nftOwner := Function.update s.nftOwner tokenId dst } := by
  unfold nftTransferFrom
  split
  next h1 =>
    subst h1
    constructor
    · intro h; exact absurd h (by simp)
    · rintro ⟨h, -⟩; exact absurd rfl h
  next h1 =>
    split
    next h2 =>
      constructor
      · intro h
        split at h <;> exact absurd h (by simp)
      · rintro ⟨-, ha, -⟩; rw [ha] at h2; cases h2
    next h2 =>
      split
      next h3 =>
        constructor
        · intro h; exact absurd h (by simp)
        · rintro ⟨-, -, hf, -⟩; exact absurd hf h3
      next h3 =>
        constructor
        · intro h
          injection h with h4
          refine ⟨h1, ?_, ?_, h4.symm⟩
          · cases hb : nftIsAuthorized s.nftOperator s.nftTokenApproval
                (s.nftOwner tokenId) spender tokenId
            · exact absurd hb h2
            · rfl
          · by_contra hc; exact h3 hc
        · rintro ⟨-, -, -, rfl⟩; rfl

theorem nftApprove_ok_iff (s : ChainState) (caller dst tokenId : Nat)
    (s' : ChainState) :
    nftApprove s caller dst tokenId = .ok s' ↔
      s.nftOwner tokenId ≠ 0 ∧
      (s.nftOwner tokenId = caller ∨ s.nftOperator (s.nftOwner tokenId, caller) = true) ∧
      s' = { s with
        nftTokenApproval := Function.update s.nftTokenApproval tokenId dst } := by
  unfold nftApprove
  split
  next h1 =>
    constructor
    · intro h; exact absurd h (by simp)
    · rintro ⟨h, -⟩; exact absurd h1 h
  next h1 =>
    split
    next h2 =>
      constructor
      · intro h; exact absurd h (by simp)
      · rintro ⟨-, hd, -⟩
        rcases hd with hd | hd
        · exact absurd hd h2.1
        · rw [h2.2] at hd; cases hd
    next h2 =>
      constructor
      · intro h
        injection h with h3
        refine ⟨h1, ?_, h3.symm⟩
        by_cases hq : s.nftOwner tokenId = caller
        · exact Or.inl hq
        · refine Or.inr ?_
          by_contra hr
          refine h2 ⟨fun he => hq he, ?_⟩
          cases hb : s.nftOperator (s.nftOwner tokenId, caller)
          · rfl
          · exact absurd hb hr
      · rintro ⟨-, -, rfl⟩; rfl

theorem nftSetApprovalForAll_ok_iff (s : ChainState) (caller op : Nat)
    (approved : Bool) (s' : ChainState) :
    nftSetApprovalForAll s caller op approved = .ok s' ↔
      op ≠ 0 ∧
      s' = { s with
        nftOperator := Function.update s.nftOperator (caller, op) approved } := by
  unfold nftSetApprovalForAll
  split
  next h1 =>
    subst h1
    constructor
    · intro h; exact absurd h (by simp)
    · rintro ⟨h, -⟩; exact absurd rfl h
  next h1 =>
    constructor
    · intro h
      injection h with h2
      exact ⟨h1, h2.symm⟩
    · rintro ⟨-, rfl⟩; rfl

/-! ## Success characterisations of the contract operations -/

theorem liquidate_ok_iff (s : ChainState) (caller tokenId : Nat) (s' : ChainState) :
    liquidate s caller tokenId = .ok s' ↔
      s.nftOwner tokenId = caller ∧ caller ≠ 0 ∧
      (s.vaults tokenId).liquidated = false ∧
      (s.vaults tokenId).amount ≤ s.erc20Bal ((s.vaults tokenId).tokenAddress, nftAddr) ∧
      s' = { s with
        erc20Bal := moveToken s.erc20Bal (s.vaults tokenId).tokenAddress nftAddr caller
          (s.vaults tokenId).amount,
        vaults := Function.update s.vaults tokenId
          ⟨(s.vaults tokenId).tokenAddress, (s.vaults tokenId).amount, true⟩,
        events := .GiftCardLiquidated tokenId caller (s.vaults tokenId).amount
          :: s.events } := by
  simp only [liquidate, ownerOf]
  split
  next e h0 =>
    simp only [reduceCtorEq, false_iff]
    rintro ⟨hown, hc, -⟩
    rw [if_neg (by rw [hown]; exact hc)] at h0
    cases h0
  next owner h0 =>
    have hz : s.nftOwner tokenId ≠ 0 := by
      intro hz; rw [if_pos hz] at h0; cases h0
    rw [if_neg hz] at h0
    injection h0 with h0
    subst h0
    split
    next h1 =>
      simp only [reduceCtorEq, false_iff]
      rintro ⟨hown, -⟩
      exact h1 hown
    next h1 =>
      have hown : s.nftOwner tokenId = caller := by
        by_contra hc; exact h1 hc
      split
      next h2 =>
        simp only [reduceCtorEq, false_iff]
        rintro ⟨-, -, hl, -⟩
        rw [hl] at h2
        cases h2
      next h2 =>
        split
        next e2 heq =>
          simp only [reduceCtorEq, false_iff]
          rintro ⟨-, -, -, hb, -⟩
          simp only [erc20Transfer] at heq
          split at heq
          next hlt =>
            have hlt2 : s.erc20Bal ((s.vaults tokenId).tokenAddress, nftAddr) <
                (s.vaults tokenId).amount := hlt
            omega
          next => cases heq
        next s2 heq =>
          rw [erc20Transfer_ok_iff] at heq
          obtain ⟨hb, rfl⟩ := heq
          constructor
          · intro h
            injection h with h3
            refine ⟨hown, fun hc => hz (hc ▸ hown), ?_, hb, h3.symm⟩
            cases hl : (s.vaults tokenId).liquidated
            · rfl
            · exact absurd hl h2
          · rintro ⟨-, -, -, -, rfl⟩; rfl

theorem moveEth_dst (b : Nat → Nat) (frm dst amt : Nat) :
    amt ≤ moveEth b frm dst amt dst := by
  unfold moveEth
  simp only [Function.update_same]
  exact Nat.le_add_left amt _

theorem createGiftCard_ok_iff (s : ChainState) (caller : Nat) (uri : String)
    (tok amt : Nat) (out : ChainState × Nat) :
    createGiftCard s caller uri tok amt = .ok out ↔
      tok ≠ 0 ∧ amt ≠ 0 ∧ amt ≤ s.erc20Bal (tok, caller) ∧
      amt ≤ s.erc20Allow (tok, caller, nftAddr) ∧
      caller ≠ 0 ∧ s.nftOwner s.tokenIdCounter = 0 ∧
      out = ({ s with
        erc20Allow := Function.update s.erc20Allow (tok, caller, nftAddr)
          (s.erc20Allow (tok, caller, nftAddr) - amt),
        erc20Bal := moveToken s.erc20Bal tok caller nftAddr amt,
        nftOwner := Function.update s.nftOwner s.tokenIdCounter caller,
        nftTokenURI := Function.update s.nftTokenURI s.tokenIdCounter uri,
        vaults := Function.update s.vaults s.tokenIdCounter ⟨tok, amt, false⟩,
        tokenIdCounter := s.tokenIdCounter + 1,
        events := .GiftCardCreated s.tokenIdCounter caller tok amt :: s.events },
        s.tokenIdCounter) := by
  simp only [createGiftCard]
  split
  next h1 =>
    simp only [reduceCtorEq, false_iff]
    rintro ⟨ht, -⟩
    exact ht h1
  next h1 =>
    split
    next h2 =>
      simp only [reduceCtorEq, false_iff]
      rintro ⟨-, ha, -⟩
      exact ha h2
    next h2 =>
      split
      next h3 =>
        simp only [reduceCtorEq, false_iff]
        rintro ⟨-, -, hb, -⟩
        omega
      next h3 =>
        split
        next e heq =>
          simp only [reduceCtorEq, false_iff]
          rintro ⟨-, -, hb, hal, -⟩
          simp only [erc20TransferFrom] at heq
          split at heq
          all_goals first
            | omega
            | cases heq
        next s1 heq =>
          rw [erc20TransferFrom_ok_iff] at heq
          obtain ⟨hal, hbb, rfl⟩ := heq
          split
          next h4 =>
            simp only [reduceCtorEq, false_iff]
            rintro ⟨-, -, -, -, hc, -⟩
            exact hc h4
          next h4 =>
            split
            next h5 =>
              simp only [reduceCtorEq, false_iff]
              rintro ⟨-, -, -, -, -, hz, -⟩
              exact h5 hz
            next h5 =>
              have hz : s.nftOwner s.tokenIdCounter = 0 := by
                by_contra hc; exact h5 hc
              constructor
              · intro h
                injection h with h6
                exact ⟨h1, h2, by omega, by omega, h4, hz, h6.symm⟩
              · rintro ⟨-, -, -, -, -, -, rfl⟩; rfl

theorem createArtistListing_ok_iff (s : ChainState) (caller : Nat)
    (ipfsHash : String) (price : Nat) (out : ChainState × Nat) :
    createArtistListing s caller ipfsHash price = .ok out ↔
      ipfsHash ≠ "" ∧ price ≠ 0 ∧
      out = ({ s with
        artistListings := Function.update s.artistListings s.artistListingCounter
          ⟨s.artistListingCounter, caller, ipfsHash, price, true⟩,
        artistListingCounter := s.artistListingCounter + 1,
        events := .ArtistListingCreated s.artistListingCounter caller price
          :: s.events }, s.artistListingCounter) := by
  simp only [createArtistListing]
  split
  next h1 =>
    simp only [reduceCtorEq, false_iff]
    rintro ⟨hh, -⟩
    exact hh h1
  next h1 =>
    split
    next h2 =>
      simp only [reduceCtorEq, false_iff]
      rintro ⟨-, hp, -⟩
      exact hp h2
    next h2 =>
      constructor
      · intro h
        injection h with h3
        exact ⟨h1, h2, h3.symm⟩
      · rintro ⟨-, -, rfl⟩; rfl

theorem cancelArtistListing_ok_iff (s : ChainState) (caller listingId : Nat)
    (s' : ChainState) :
    cancelArtistListing s caller listingId = .ok s' ↔
      (s.artistListings listingId).artist = caller ∧
      (s.artistListings listingId).active = true ∧
      s' = { s with
        artistListings := Function.update s.artistListings listingId
          (deactivateArtist (s.artistListings listingId)),
        events := .ListingCancelled listingId "artist" :: s.events } := by
  simp only [cancelArtistListing]
  split
  next h1 =>
    simp only [reduceCtorEq, false_iff]
    rintro ⟨ha, -⟩
    exact h1 ha
  next h1 =>
    have ha : (s.artistListings listingId).artist = caller := by
      by_contra hc; exact h1 hc
    split
    next h2 =>
      simp only [reduceCtorEq, false_iff]
      rintro ⟨-, hb, -⟩
      rw [hb] at h2
      cases h2
    next h2 =>
      constructor
      · intro h
        injection h with h3
        refine ⟨ha, ?_, h3.symm⟩
        cases hb : (s.artistListings listingId).active
        · exact absurd hb h2
        · rfl
      · rintro ⟨-, -, rfl⟩; rfl

theorem purchaseArtistDesign_ok_iff (s : ChainState) (caller value listingId : Nat)
    (out : ChainState × String) :
    purchaseArtistDesign s caller value listingId = .ok out ↔
      value ≤ s.ethBal caller ∧
      (s.artistListings listingId).active = true ∧
      (s.artistListings listingId).price ≤ value ∧
      s.acceptsEth (s.artistListings listingId).artist = true ∧
      out = ({ s with
        ethBal := moveEth (moveEth s.ethBal caller marketAddr value) marketAddr
          (s.artistListings listingId).artist value,
        artistListings := Function.update s.artistListings listingId
          (deactivateArtist (s.artistListings listingId)),
        events := .ArtistDesignPurchased listingId caller
          (s.artistListings listingId).artist :: s.events },
        (s.artistListings listingId).ipfsHash) := by
  simp only [purchaseArtistDesign]
  split
  next e heq =>
    simp only [reduceCtorEq, false_iff]
    rintro ⟨hv, -⟩
    simp only [payIn] at heq
    split at heq
    all_goals first | omega | cases heq
  next s1 heq =>
    rw [payIn_ok_iff] at heq
    obtain ⟨hv, rfl⟩ := heq
    split
    next h1 =>
      simp only [reduceCtorEq, false_iff]
      rintro ⟨-, ha, -⟩
      have h1' : (s.artistListings listingId).active = false := h1
      rw [ha] at h1'
      cases h1'
    next h1 =>
      split
      next h2 =>
        simp only [reduceCtorEq, false_iff]
        rintro ⟨-, -, hp, -⟩
        have h2' : value < (s.artistListings listingId).price := h2
        omega
      next h2 =>
        split
        next heq2 =>
          simp only [reduceCtorEq, false_iff]
          rintro ⟨-, -, -, hacc, -⟩
          simp only [sendValue] at heq2
          split at heq2
          next => cases heq2
          next hc => exact hc ⟨hacc, moveEth_dst _ _ _ _⟩
        next s3 heq2 =>
          rw [sendValue_some_iff] at heq2
          obtain ⟨hacc, hle, rfl⟩ := heq2
          constructor
          · intro h
            injection h with h3
            refine ⟨hv, ?_, ?_, hacc, h3.symm⟩
            · cases hb : (s.artistListings listingId).active
              · exact absurd hb h1
              · rfl
            · have h2' : ¬ value < (s.artistListings listingId).price := h2
              omega
          · rintro ⟨-, -, -, -, rfl⟩; rfl

theorem listGiftCard_ok_iff (s : ChainState) (caller tokenId price : Nat)
    (out : ChainState × Nat) :
    listGiftCard s caller tokenId price = .ok out ↔
      s.nftOwner tokenId = caller ∧ caller ≠ 0 ∧ price ≠ 0 ∧
      s.nftTokenApproval tokenId = marketAddr ∧
      out = ({ s with
        nftOwner := Function.update s.nftOwner tokenId marketAddr,
        nftTokenApproval := Function.update s.nftTokenApproval tokenId 0,
        giftCardListings := Function.update s.giftCardListings s.giftCardListingCounter
          ⟨s.giftCardListingCounter, tokenId, caller, price, true⟩,
        giftCardListingCounter := s.giftCardListingCounter + 1,
        events := .GiftCardListed s.giftCardListingCounter tokenId price
          :: s.events }, s.giftCardListingCounter) := by
  simp only [listGiftCard, ownerOf]
  split
  next e h0 =>
    simp only [reduceCtorEq, false_iff]
    rintro ⟨hown, hc, -⟩
    rw [if_neg (by rw [hown]; exact hc)] at h0
    cases h0
  next owner h0 =>
    have hz : s.nftOwner tokenId ≠ 0 := by
      intro hz; rw [if_pos hz] at h0; cases h0
    rw [if_neg hz] at h0
    injection h0 with h0
    subst h0
    split
    next h1 =>
      simp only [reduceCtorEq, false_iff]
      rintro ⟨hown, -⟩
      exact h1 hown
    next h1 =>
      have hown : s.nftOwner tokenId = caller := by by_contra hc; exact h1 hc
      split
      next h2 =>
        simp only [reduceCtorEq, false_iff]
        rintro ⟨-, -, hp, -⟩
        exact hp h2
      next h2 =>
        split
        next h3 =>
          simp only [reduceCtorEq, false_iff]
          rintro ⟨-, -, -, hap, -⟩
          exact h3 hap
        next h3 =>
          have hap : s.nftTokenApproval tokenId = marketAddr := by
            by_contra hc; exact h3 hc
          split
          next e heq =>
            simp only [reduceCtorEq, false_iff]
            rintro -
            simp only [nftTransferFrom] at heq
            split at heq
            all_goals simp_all [nftIsAuthorized, marketAddr]
          next s1 heq =>
            rw [nftTransferFrom_ok_iff] at heq
            obtain ⟨-, -, -, rfl⟩ := heq
            constructor
            · intro h
              injection h with h4
              exact ⟨hown, fun hc => hz (hc ▸ hown), h2, hap, h4.symm⟩
            · rintro ⟨-, -, -, -, rfl⟩; rfl

theorem purchaseGiftCard_ok_iff (s : ChainState) (caller value listingId : Nat)
    (s' : ChainState) :
    purchaseGiftCard s caller value listingId = .ok s' ↔
      value ≤ s.ethBal caller ∧
      (s.giftCardListings listingId).active = true ∧
      (s.giftCardListings listingId).price ≤ value ∧
      caller ≠ 0 ∧
      s.nftOwner (s.giftCardListings listingId).tokenId = marketAddr ∧
      s.acceptsEth (s.giftCardListings listingId).seller = true ∧
      s' = { s with
        ethBal := moveEth (moveEth s.ethBal caller marketAddr value) marketAddr
          (s.giftCardListings listingId).seller value,
        nftOwner := Function.update s.nftOwner
          (s.giftCardListings listingId).tokenId caller,
        nftTokenApproval := Function.update s.nftTokenApproval
          (s.giftCardListings listingId).tokenId 0,
        giftCardListings := Function.update s.giftCardListings listingId
          (deactivateGiftCard (s.giftCardListings listingId)),
        events := .GiftCardSold listingId (s.giftCardListings listingId).tokenId caller
          :: s.events } := by
  simp only [purchaseGiftCard]
  split
  next e heq =>
    simp only [reduceCtorEq, false_iff]
    rintro ⟨hv, -⟩
    simp only [payIn] at heq
    split at heq
    all_goals first | omega | cases heq
  next s1 heq =>
    rw [payIn_ok_iff] at heq
    obtain ⟨hv, rfl⟩ := heq
    split
    next h1 =>
      simp only [reduceCtorEq, false_iff]
      rintro ⟨-, ha, -⟩
      have h1' : (s.giftCardListings listingId).active = false := h1
      rw [ha] at h1'
      cases h1'
    next h1 =>
      split
      next h2 =>
        simp only [reduceCtorEq, false_iff]
        rintro ⟨-, -, hp, -⟩
        have h2' : value < (s.giftCardListings listingId).price := h2
        omega
      next h2 =>
        split
        next e heq2 =>
          simp only [reduceCtorEq, false_iff]
          rintro ⟨-, -, -, hc, hown, -⟩
          simp only [nftTransferFrom] at heq2
          split at heq2
          all_goals simp_all [nftIsAuthorized, marketAddr]
        next s3 heq2 =>
          rw [nftTransferFrom_ok_iff] at heq2
          obtain ⟨hdst, hauth, hfrm, rfl⟩ := heq2
          split
          next heq3 =>
            simp only [reduceCtorEq, false_iff]
            rintro ⟨-, -, -, -, -, hacc, -⟩
            simp only [sendValue] at heq3
            split at heq3
            next => cases heq3
            next hcn => exact hcn ⟨hacc, moveEth_dst _ _ _ _⟩
          next s4 heq3 =>
            rw [sendValue_some_iff] at heq3
            obtain ⟨hacc, hle, rfl⟩ := heq3
            constructor
            · intro h
              injection h with h3
              refine ⟨hv, ?_, ?_, hdst, hfrm, hacc, h3.symm⟩
              · cases hb : (s.giftCardListings listingId).active
                · exact absurd hb h1
                · rfl
              · have h2' : ¬ value < (s.giftCardListings listingId).price := h2
                omega
            · rintro ⟨-, -, -, -, -, -, rfl⟩; rfl

theorem cancelGiftCardListing_ok_iff (s : ChainState) (caller listingId : Nat)
    (s' : ChainState) :
    cancelGiftCardListing s caller listingId = .ok s' ↔
      (s.giftCardListings listingId).seller = caller ∧
      (s.giftCardListings listingId).active = true ∧
      caller ≠ 0 ∧
      s.nftOwner (s.giftCardListings listingId).tokenId = marketAddr ∧
      s' = { s with
        nftOwner := Function.update s.nftOwner
          (s.giftCardListings listingId).tokenId caller,
        nftTokenApproval := Function.update s.nftTokenApproval
          (s.giftCardListings listingId).tokenId 0,
        giftCardListings := Function.update s.giftCardListings listingId
          (deactivateGiftCard (s.giftCardListings listingId)),
        events := .ListingCancelled listingId "giftcard" :: s.events } := by
  simp only [cancelGiftCardListing]
  split
  next h1 =>
    simp only [reduceCtorEq, false_iff]
    rintro ⟨hs, -⟩
    exact h1 hs
  next h1 =>
    have hs : (s.giftCardListings listingId).seller = caller := by
      by_contra hc; exact h1 hc
    split
    next h2 =>
      simp only [reduceCtorEq, false_iff]
      rintro ⟨-, ha, -⟩
      rw [ha] at h2
      cases h2
    next h2 =>
      split
      next e heq =>
        simp only [reduceCtorEq, false_iff]
        rintro ⟨-, -, hc, hown, -⟩
        simp only [nftTransferFrom] at heq
        split at heq
        all_goals simp_all [nftIsAuthorized, marketAddr]
      next s1 heq =>
        rw [nftTransferFrom_ok_iff] at heq
        obtain ⟨hdst, hauth, hfrm, rfl⟩ := heq
        constructor
        · intro h
          injection h with h3
          refine ⟨hs, ?_, hdst, hfrm, h3.symm⟩
          cases hb : (s.giftCardListings listingId).active
          · exact absurd hb h2
          · rfl
        · rintro ⟨-, -, -, -, rfl⟩; rfl

/-! ## Transaction-level helpers -/

theorem exec_of_step_error {s : ChainState} {c : Call} {e : Err}
    (h : step s c = .error e) : exec s c = s := by
  simp only [exec, h]

theorem exec_of_step_ok {s : ChainState} {c : Call} {s' : ChainState}
    (h : step s c = .ok s') : exec s c = s' := by
  simp only [exec, h]

/-- Owner check failure: `liquidate` called by anyone other than the
current owner of a minted token reverts with `NotTokenOwner`, before the
`liquidated` flag is even read. -/
theorem liquidate_not_owner (s : ChainState) (caller tokenId : Nat)
    (hmint : s.nftOwner tokenId ≠ 0) (hne : caller ≠ s.nftOwner tokenId) :
    liquidate s caller tokenId = .error .NotTokenOwner := by
  have h1 : s.nftOwner tokenId ≠ caller := fun h => hne h.symm
  simp only [liquidate, ownerOf, if_neg hmint, if_pos h1]

/-! ## Concrete states used by witnesses and counterexamples

`witInit` is a deployment state: address 10 holds 100 units of the ERC-20
token deployed at address 5 and has approved the NFT contract to pull
them; addresses 11 and 12 hold 50 units of native currency; address 20
rejects plain value transfers (as a contract without a receive function
would), every other address accepts them. -/

def witInit : ChainState where
  erc20Bal := fun p => if p = (5, 10) then 100 else 0
  erc20Allow := fun p => if p = (5, 10, nftAddr) then 100 else 0
  ethBal := fun a => if a = 11 then 50 else if a = 12 then 50 else 0
  acceptsEth := fun a => decide (a ≠ 20)
  nftOwner := fun _ => 0
  nftTokenApproval := fun _ => 0
  nftOperator := fun _ => false
  nftTokenURI := fun _ => ""
  vaults := fun _ => ⟨0, 0, false⟩
  tokenIdCounter := 0
  artistListings := fun _ => ⟨0, 0, "", 0, false⟩
  giftCardListings := fun _ => ⟨0, 0, 0, 0, false⟩
  artistListingCounter := 0
  giftCardListingCounter := 0
  events := []

/-- Address 10 mints gift card 0 with 100 units of token 5. -/
def stMint : ChainState := exec witInit (.createGiftCard 10 "u" 5 100)

/-- Address 10 then liquidates gift card 0. -/
def stLiq : ChainState := exec stMint (.liquidate 10 0)

/-- Address 20 (which rejects value transfers) lists an artwork at price 5. -/
def stArt : ChainState := exec witInit (.createArtistListing 20 "h" 5)

/-- Address 21 (which accepts value transfers) lists a second artwork at
price 5 (listing id 1). -/
def stArt2 : ChainState := exec stArt (.createArtistListing 21 "g" 5)

/-- Address 10 approves the marketplace for gift card 0. -/
def stAppr : ChainState := exec stMint (.nftApprove 10 marketAddr 0)

/-- Address 10 lists gift card 0 for resale at price 7 (the marketplace
takes custody). -/
def stList : ChainState := exec stAppr (.listGiftCard 10 0 7)

/-! ## Claim C8 -/

/-- C8: for every minted token and every caller that is not the token's
current owner, `liquidate` fails with `NotTokenOwner`, regardless of
whether the vault has already been liquidated or not (the owner check
precedes the `liquidated` check). -/
theorem redeem_authorization_boundary (s : ChainState) (caller tokenId : Nat)
    (hmint : s.nftOwner tokenId ≠ 0) (hne : caller ≠ s.nftOwner tokenId) :
    liquidate s caller tokenId = .error .NotTokenOwner :=
  liquidate_not_owner s caller tokenId hmint hne

/-- C8 witness: in the concrete state where token 0 is owned by address 10
and has already been liquidated, a liquidate call by address 11 fails with
`NotTokenOwner` (not `AlreadyLiquidated`). -/
theorem redeem_authorization_boundary_witness :
    liquidate stLiq 11 0 = .error .NotTokenOwner ∧
    (stLiq.vaults 0).liquidated = true ∧
    liquidate stMint 11 0 = .error .NotTokenOwner ∧
    (stMint.vaults 0).liquidated = false :=
  ⟨redeem_authorization_boundary stLiq 11 0 (by decide) (by decide), by decide,
   redeem_authorization_boundary stMint 11 0 (by decide) (by decide), by decide⟩

/-! ## Claim C10 -/

/-- C10: cancelling a listing that was never created fails with
`NotSeller`, not `InvalidListing`: in both cancel functions the
author/seller check precedes the active check, and a missing listing has
the zero address in its author/seller field, which can never equal a real
caller. -/
theorem cancel_missing_listing_not_seller (s : ChainState) (caller i : Nat)
    (hc : caller ≠ 0) :
    ((s.artistListings i).artist = 0 →
      cancelArtistListing s caller i = .error .NotSeller) ∧
    ((s.giftCardListings i).seller = 0 →
      cancelGiftCardListing s caller i = .error .NotSeller) := by
  constructor
  · intro h
    have hne : (s.artistListings i).artist ≠ caller := by
      rw [h]; exact fun he => hc he.symm
    simp only [cancelArtistListing, if_pos hne]
  · intro h
    have hne : (s.giftCardListings i).seller ≠ caller := by
      rw [h]; exact fun he => hc he.symm
    simp only [cancelGiftCardListing, if_pos hne]

/-- C10 witness: cancelling the never-created listing 3 from address 11 in
the deployment state fails with `NotSeller` in both tables. -/
theorem cancel_missing_listing_not_seller_witness :
    cancelArtistListing witInit 11 3 = .error .NotSeller ∧
    cancelGiftCardListing witInit 11 3 = .error .NotSeller :=
  ⟨(cancel_missing_listing_not_seller witInit 11 3 (by decide)).1 (by decide),
   (cancel_missing_listing_not_seller witInit 11 3 (by decide)).2 (by decide)⟩

/-! ## Claim C3 -/

/-- C3: every mutating operation is atomic on failure — a reverting
transaction leaves the state (tables, balances, emitted records) exactly
as it was; in particular `createGiftCard` with a depositor balance below
the requested amount fails with `InsufficientBalance` and changes
nothing. -/
theorem mutators_atomic_on_failure :
    (∀ (s : ChainState) (c : Call) (e : Err),
      step s c = .error e → exec s c = s) ∧
    (∀ (s : ChainState) (caller : Nat) (uri : String) (tok amt : Nat),
      tok ≠ 0 → s.erc20Bal (tok, caller) < amt →
      createGiftCard s caller uri tok amt = .error .InsufficientBalance) ∧
    (∀ (s : ChainState) (caller : Nat) (uri : String) (tok amt : Nat),
      s.erc20Bal (tok, caller) < amt →
      exec s (.createGiftCard caller uri tok amt) = s) := by
  have hatomic : ∀ (s : ChainState) (c : Call) (e : Err),
      step s c = .error e → exec s c = s := fun s c e h => exec_of_step_error h
  have hcreate : ∀ (s : ChainState) (caller : Nat) (uri : String) (tok amt : Nat),
      tok ≠ 0 → s.erc20Bal (tok, caller) < amt →
      createGiftCard s caller uri tok amt = .error .InsufficientBalance := by
    intro s caller uri tok amt htok hbal
    have hamt : amt ≠ 0 := by omega
    simp only [createGiftCard, if_neg htok, if_neg hamt, if_pos hbal]
  refine ⟨hatomic, hcreate, ?_⟩
  intro s caller uri tok amt hbal
  rcases hstep : step s (.createGiftCard caller uri tok amt) with e | s'
  · exact exec_of_step_error hstep
  · exfalso
    simp only [step, Call.caller] at hstep
    split at hstep
    · cases hstep
    · by_cases htok : tok = 0
      · rw [show createGiftCard s caller uri tok amt = .error .InvalidTokenAddress
          from by simp only [createGiftCard, if_pos htok]] at hstep
        cases hstep
      · rw [hcreate s caller uri tok amt htok hbal] at hstep
        cases hstep

/-- C3 witness: address 10 holds 100 units of token 5 but asks to deposit
101; the call fails with `InsufficientBalance` and the executed
transaction leaves the deployment state unchanged. -/
theorem mutators_atomic_on_failure_witness :
    createGiftCard witInit 10 "u" 5 101 = .error .InsufficientBalance ∧
    exec witInit (.createGiftCard 10 "u" 5 101) = witInit ∧
    exec witInit (.liquidate 11 0) = witInit :=
  ⟨mutators_atomic_on_failure.2.1 witInit 10 "u" 5 101 (by decide) (by decide),
   mutators_atomic_on_failure.2.2 witInit 10 "u" 5 101 (by decide),
   mutators_atomic_on_failure.1 witInit (.liquidate 11 0) .ERC721NonexistentToken rfl⟩

/-! ## Claim C1 -/

/-- C1 (amended): redeem succeeds at most once.  After a successful
`liquidate`, a second `liquidate` of the same token fails for every
caller — with `AlreadyLiquidated` for the owner and with `NotTokenOwner`
for any other caller (the owner check precedes the liquidated check) —
and the asset moved out of the NFT contract equals the stored vault
amount exactly once: the contract balance drops by `amount` and the
owner balance rises by `amount` on the first call, and the reverting
second call moves nothing. -/
theorem single_redemption (s : ChainState) (caller tokenId : Nat) (s' : ChainState)
    (hen : caller ≠ nftAddr)
    (h : liquidate s caller tokenId = .ok s') :
    liquidate s' caller tokenId = .error .AlreadyLiquidated ∧
    (∀ c2, c2 ≠ caller → liquidate s' c2 tokenId = .error .NotTokenOwner) ∧
    (∀ c2, ∃ e, liquidate s' c2 tokenId = .error e) ∧
    s'.erc20Bal ((s.vaults tokenId).tokenAddress, nftAddr)
      = s.erc20Bal ((s.vaults tokenId).tokenAddress, nftAddr)
        - (s.vaults tokenId).amount ∧
    s'.erc20Bal ((s.vaults tokenId).tokenAddress, caller)
      = s.erc20Bal ((s.vaults tokenId).tokenAddress, caller)
        + (s.vaults tokenId).amount ∧
    (s'.vaults tokenId).liquidated = true ∧
    (s'.vaults tokenId).amount = (s.vaults tokenId).amount := by
  rw [liquidate_ok_iff] at h
  obtain ⟨hown, hc0, hliq, hble, hs⟩ := h
  have hO : s'.nftOwner tokenId = caller := by rw [hs]; exact hown
  have hV : s'.vaults tokenId = ⟨(s.vaults tokenId).tokenAddress,
      (s.vaults tokenId).amount, true⟩ := by
    rw [hs]; simp [Function.update_same]
  have halready : liquidate s' caller tokenId = .error .AlreadyLiquidated := by
    simp [liquidate, ownerOf, hO, hc0, hV]
  have hother : ∀ c2, c2 ≠ caller →
      liquidate s' c2 tokenId = .error .NotTokenOwner := by
    intro c2 hne
    refine liquidate_not_owner s' c2 tokenId ?_ ?_
    · rw [hO]; exact hc0
    · rw [hO]; exact hne
  refine ⟨halready, hother, ?_, ?_, ?_, ?_, ?_⟩
  · intro c2
    by_cases hc : c2 = caller
    · subst hc; exact ⟨_, halready⟩
    · exact ⟨_, hother c2 hc⟩
  · rw [hs]
    simp [moveToken, Function.update_apply, Prod.mk.injEq, Ne.symm hen]
  · rw [hs]
    simp [moveToken, Function.update_apply, Prod.mk.injEq, hen]
  · rw [hV]
  · rw [hV]

/-- C1 witness: address 10 liquidates token 0; a second attempt by the
owner fails with `AlreadyLiquidated`, one by address 11 fails with
`NotTokenOwner`, and the balances moved exactly once. -/
theorem single_redemption_witness :
    liquidate stLiq 10 0 = .error .AlreadyLiquidated ∧
    liquidate stLiq 11 0 = .error .NotTokenOwner ∧
    stLiq.erc20Bal (5, nftAddr) = stMint.erc20Bal (5, nftAddr) - 100 ∧
    stLiq.erc20Bal (5, 10) = stMint.erc20Bal (5, 10) + 100 := by
  have h := single_redemption stMint 10 0 stLiq (by decide) rfl
  exact ⟨h.1, h.2.1 11 (by decide),
    by have := h.2.2.2.1; simpa using this,
    by have := h.2.2.2.2.1; simpa using this⟩

/-- C1 counterexample to the claim as stated: the claim says a second
redeem of the same token by ANY caller fails with `AlreadyRedeemed`; in
the concrete run below the second redeem by address 11 (not the owner)
fails with `NotTokenOwner` instead. -/
theorem single_redemption_counterexample :
    liquidate stMint 10 0 = .ok stLiq ∧
    liquidate stLiq 11 0 = .error .NotTokenOwner ∧
    Err.NotTokenOwner ≠ Err.AlreadyLiquidated :=
  ⟨rfl, rfl, by decide⟩

/-! ## Claim C2 -/

/-- C2 (amended): when `purchaseArtistDesign` hits an active listing with
sufficient payment but the payment forwarding to the artist fails, the
transaction reverts with `TransferFailed`; the revert rolls back the
deactivation, so the listing remains ACTIVE and no state change (including
the deactivation and the buyer's payment) persists. -/
theorem purchase_payment_failure_reverts (s : ChainState) (caller value i : Nat)
    (h0 : caller ≠ 0) (h1 : caller ≠ nftAddr) (h2 : caller ≠ marketAddr)
    (hbal : value ≤ s.ethBal caller)
    (hactive : (s.artistListings i).active = true)
    (hpay : (s.artistListings i).price ≤ value)
    (hrej : s.acceptsEth (s.artistListings i).artist = false) :
    step s (.purchaseArtistDesign caller value i) = .error .TransferFailed ∧
    exec s (.purchaseArtistDesign caller value i) = s ∧
    ((exec s (.purchaseArtistDesign caller value i)).artistListings i).active
      = true := by
  have hb2 : ¬ s.ethBal caller < value := by omega
  have hp2 : ¬ value < (s.artistListings i).price := by omega
  have hfail : purchaseArtistDesign s caller value i = .error .TransferFailed := by
    simp [purchaseArtistDesign, payIn, sendValue, hb2, hactive, hp2, hrej]
  have hstep : step s (.purchaseArtistDesign caller value i)
      = .error .TransferFailed := by
    simp [step, Call.caller, h0, h1, h2, hfail, Except.map]
  refine ⟨hstep, exec_of_step_error hstep, ?_⟩
  rw [exec_of_step_error hstep]
  exact hactive

/-- C2 witness for the amended claim: address 11 pays 5 for listing 0
whose artist (address 20) rejects value transfers; the transaction fails
with `TransferFailed` and the listing is still active afterwards. -/
theorem purchase_payment_failure_reverts_witness :
    step stArt (.purchaseArtistDesign 11 5 0) = .error .TransferFailed ∧
    exec stArt (.purchaseArtistDesign 11 5 0) = stArt ∧
    ((exec stArt (.purchaseArtistDesign 11 5 0)).artistListings 0).active = true :=
  purchase_payment_failure_reverts stArt 11 5 0 (by decide) (by decide) (by decide)
    (by decide) (by decide) (by decide) (by decide)

/-- C2 counterexample to the claim as stated: the claim says the listing
"remains deactivated (active stays false after the failed call)"; in the
concrete failing purchase below the listing's `active` flag is `true`
after the failed call (the revert rolled the deactivation back). -/
theorem purchase_payment_failure_counterexample :
    step stArt (.purchaseArtistDesign 11 5 0) = .error .TransferFailed ∧
    ((exec stArt (.purchaseArtistDesign 11 5 0)).artistListings 0).active = true ∧
    true ≠ false := ⟨rfl, rfl, by decide⟩

/-! ## Claim C7 -/

/-- C7: a successful `purchaseArtistDesign` on an active listing with
payment ≥ price deactivates the listing, forwards the ENTIRE payment
(including any overpayment, with no refund of the excess) to the artist,
and returns the listing's original `ipfsHash` to the caller. -/
theorem purchase_artwork_full_payment (s : ChainState) (caller value i : Nat)
    (hbal : value ≤ s.ethBal caller)
    (hactive : (s.artistListings i).active = true)
    (hpay : (s.artistListings i).price ≤ value)
    (hacc : s.acceptsEth (s.artistListings i).artist = true)
    (hca : caller ≠ (s.artistListings i).artist)
    (hcm : caller ≠ marketAddr)
    (ham : (s.artistListings i).artist ≠ marketAddr) :
    ∃ s', purchaseArtistDesign s caller value i
        = .ok (s', (s.artistListings i).ipfsHash) ∧
      (s'.artistListings i).active = false ∧
      (s'.artistListings i).ipfsHash = (s.artistListings i).ipfsHash ∧
      s'.ethBal (s.artistListings i).artist
        = s.ethBal (s.artistListings i).artist + value ∧
      s'.ethBal caller = s.ethBal caller - value := by
  refine ⟨_, (purchaseArtistDesign_ok_iff s caller value i _).mpr
    ⟨hbal, hactive, hpay, hacc, rfl⟩, ?_, ?_, ?_, ?_⟩
  · simp [Function.update_same, deactivateArtist]
  · simp [Function.update_same, deactivateArtist]
  · show moveEth (moveEth s.ethBal caller marketAddr value) marketAddr
      (s.artistListings i).artist value (s.artistListings i).artist
      = s.ethBal (s.artistListings i).artist + value
    simp [moveEth, Function.update_apply, ham, Ne.symm hca]
  · show moveEth (moveEth s.ethBal caller marketAddr value) marketAddr
      (s.artistListings i).artist value caller = s.ethBal caller - value
    simp [moveEth, Function.update_apply, hca, hcm]

/-- C7 witness: address 11 overpays (9 against a price of 5) for listing 1
whose artist is address 21; the artist receives the full 9, the buyer is
debited 9, the listing deactivates, and the original hash is returned. -/
theorem purchase_artwork_full_payment_witness :
    ∃ s', purchaseArtistDesign stArt2 11 9 1
        = .ok (s', (stArt2.artistListings 1).ipfsHash) ∧
      (s'.artistListings 1).active = false ∧
      (s'.artistListings 1).ipfsHash = (stArt2.artistListings 1).ipfsHash ∧
      s'.ethBal (stArt2.artistListings 1).artist
        = stArt2.ethBal (stArt2.artistListings 1).artist + 9 ∧
      s'.ethBal 11 = stArt2.ethBal 11 - 9 :=
  purchase_artwork_full_payment stArt2 11 9 1 (by decide) (by decide) (by decide)
    (by decide) (by decide) (by decide) (by decide)

/-! ## Inversion of a successful transaction -/

/-- Case analysis for a successful `step`: the caller is a valid external
account and the corresponding contract operation succeeded. -/
theorem step_ok_inversion (s : ChainState) (c : Call) (s' : ChainState)
    (h : step s c = .ok s') :
    c.caller ≠ 0 ∧ c.caller ≠ nftAddr ∧ c.caller ≠ marketAddr ∧
    ((∃ caller uri tok amt r, c = .createGiftCard caller uri tok amt ∧
        createGiftCard s caller uri tok amt = .ok (s', r)) ∨
     (∃ caller tokenId, c = .liquidate caller tokenId ∧
        liquidate s caller tokenId = .ok s') ∨
     (∃ caller frm dst tokenId, c = .nftTransferFrom caller frm dst tokenId ∧
        nftTransferFrom s caller frm dst tokenId = .ok s') ∨
     (∃ caller dst tokenId, c = .nftApprove caller dst tokenId ∧
        nftApprove s caller dst tokenId = .ok s') ∨
     (∃ caller op approved, c = .nftSetApprovalForAll caller op approved ∧
        nftSetApprovalForAll s caller op approved = .ok s') ∨
     (∃ caller hsh price r, c = .createArtistListing caller hsh price ∧
        createArtistListing s caller hsh price = .ok (s', r)) ∨
     (∃ caller value i r, c = .purchaseArtistDesign caller value i ∧
        purchaseArtistDesign s caller value i = .ok (s', r)) ∨
     (∃ caller i, c = .cancelArtistListing caller i ∧
        cancelArtistListing s caller i = .ok s') ∨
     (∃ caller tokenId price r, c = .listGiftCard caller tokenId price ∧
        listGiftCard s caller tokenId price = .ok (s', r)) ∨
     (∃ caller value i, c = .purchaseGiftCard caller value i ∧
        purchaseGiftCard s caller value i = .ok s') ∨
     (∃ caller i, c = .cancelGiftCardListing caller i ∧
        cancelGiftCardListing s caller i = .ok s')) := by
  simp only [step] at h
  split at h
  · cases h
  next hg =>
    push_neg at hg
    obtain ⟨h0, h1, h2⟩ := hg
    refine ⟨h0, h1, h2, ?_⟩
    cases c with
    | createGiftCard caller uri tok amt =>
      dsimp only at h
      rcases hop : createGiftCard s caller uri tok amt with e | out
      · rw [hop] at h; cases h
      · rw [hop] at h
        simp only [Except.map] at h
        injection h with h3
        exact Or.inl ⟨caller, uri, tok, amt, out.2, rfl, by rw [hop, ← h3]⟩
    | liquidate caller tokenId =>
      exact Or.inr (Or.inl ⟨caller, tokenId, rfl, h⟩)
    | nftTransferFrom caller frm dst tokenId =>
      exact Or.inr (Or.inr (Or.inl ⟨caller, frm, dst, tokenId, rfl, h⟩))
    | nftApprove caller dst tokenId =>
      exact Or.inr (Or.inr (Or.inr (Or.inl ⟨caller, dst, tokenId, rfl, h⟩)))
    | nftSetApprovalForAll caller op approved =>
      exact Or.inr (Or.inr (Or.inr (Or.inr (Or.inl ⟨caller, op, approved, rfl, h⟩))))
    | createArtistListing caller hsh price =>
      dsimp only at h
      rcases hop : createArtistListing s caller hsh price with e | out
      · rw [hop] at h; cases h
      · rw [hop] at h
        simp only [Except.map] at h
        injection h with h3
        refine Or.inr (Or.inr (Or.inr (Or.inr (Or.inr (Or.inl
          ⟨caller, hsh, price, out.2, rfl, by rw [hop, ← h3]⟩)))))
    | purchaseArtistDesign caller value i =>
      dsimp only at h
      rcases hop : purchaseArtistDesign s caller value i with e | out
      · rw [hop] at h; cases h
      · rw [hop] at h
        simp only [Except.map] at h
        injection h with h3
        refine Or.inr (Or.inr (Or.inr (Or.inr (Or.inr (Or.inr (Or.inl
          ⟨caller, value, i, out.2, rfl, by rw [hop, ← h3]⟩))))))
    | cancelArtistListing caller i =>
      exact Or.inr (Or.inr (Or.inr (Or.inr (Or.inr (Or.inr (Or.inr (Or.inl
        ⟨caller, i, rfl, h⟩)))))))
    | listGiftCard caller tokenId price =>
      dsimp only at h
      rcases hop : listGiftCard s caller tokenId price with e | out
      · rw [hop] at h; cases h
      · rw [hop] at h
        simp only [Except.map] at h
        injection h with h3
        refine Or.inr (Or.inr (Or.inr (Or.inr (Or.inr (Or.inr (Or.inr (Or.inr
          (Or.inl ⟨caller, tokenId, price, out.2, rfl, by rw [hop, ← h3]⟩))))))))
    | purchaseGiftCard caller value i =>
      exact Or.inr (Or.inr (Or.inr (Or.inr (Or.inr (Or.inr (Or.inr (Or.inr
        (Or.inr (Or.inl ⟨caller, value, i, rfl, h⟩)))))))))
    | cancelGiftCardListing caller i =>
      exact Or.inr (Or.inr (Or.inr (Or.inr (Or.inr (Or.inr (Or.inr (Or.inr
        (Or.inr (Or.inr ⟨caller, i, rfl, h⟩)))))))))

/-! ## Claim C5 -/

/-- Calls handled by the Marketplace contract. -/
def Call.isMarketOp : Call → Prop
  | .createArtistListing _ _ _ => True
  | .purchaseArtistDesign _ _ _ => True
  | .cancelArtistListing _ _ => True
  | .listGiftCard _ _ _ => True
  | .purchaseGiftCard _ _ _ => True
  | .cancelGiftCardListing _ _ => True
  | _ => False

/-- C5: vault contents are immutable after creation.  (1) no transaction
changes the `tokenAddress` or `amount` of an existing vault; (2) a
successful liquidate leaves `getVaultContents` reporting the original
amount and asset with only the `liquidated` flag flipped (the amount is
not zeroed); (3) the marketplace operations (list, purchase, cancel, and
the artwork ones) never touch the vault table at all, `liquidated`
included. -/
theorem vault_contents_immutable :
    (∀ (s : ChainState) (c : Call) (t : Nat), t < s.tokenIdCounter →
      ((exec s c).vaults t).tokenAddress = (s.vaults t).tokenAddress ∧
      ((exec s c).vaults t).amount = (s.vaults t).amount) ∧
    (∀ (s : ChainState) (caller tokenId : Nat) (s' : ChainState),
      liquidate s caller tokenId = .ok s' →
      getVaultContents s' tokenId
        = ⟨(s.vaults tokenId).tokenAddress, (s.vaults tokenId).amount, true⟩) ∧
    (∀ (s : ChainState) (c : Call), c.isMarketOp → (exec s c).vaults = s.vaults) := by
  refine ⟨?_, ?_, ?_⟩
  · intro s c t ht
    rcases hstep : step s c with e | s'
    · rw [exec_of_step_error hstep]; exact ⟨rfl, rfl⟩
    · rw [exec_of_step_ok hstep]
      obtain ⟨-, -, -, hc⟩ := step_ok_inversion s c s' hstep
      rcases hc with ⟨caller, uri, tok, amt, r, -, hop⟩ | ⟨caller, tokenId, -, hop⟩ |
        ⟨caller, frm, dst, tokenId, -, hop⟩ | ⟨caller, dst, tokenId, -, hop⟩ |
        ⟨caller, op, approved, -, hop⟩ | ⟨caller, hsh, price, r, -, hop⟩ |
        ⟨caller, value, i, r, -, hop⟩ | ⟨caller, i, -, hop⟩ |
        ⟨caller, tokenId, price, r, -, hop⟩ | ⟨caller, value, i, -, hop⟩ |
        ⟨caller, i, -, hop⟩
      · rw [createGiftCard_ok_iff] at hop
        obtain ⟨-, -, -, -, -, -, hout⟩ := hop
        injection hout with hs hr
        subst hs
        have hne : t ≠ s.tokenIdCounter := by omega
        simp [Function.update_apply, hne]
      · rw [liquidate_ok_iff] at hop
        obtain ⟨-, -, -, -, hs⟩ := hop
        subst hs
        by_cases htk : t = tokenId <;> simp [Function.update_apply, htk]
      · rw [nftTransferFrom_ok_iff] at hop
        obtain ⟨-, -, -, hs⟩ := hop
        subst hs; exact ⟨rfl, rfl⟩
      · rw [nftApprove_ok_iff] at hop
        obtain ⟨-, -, hs⟩ := hop
        subst hs; exact ⟨rfl, rfl⟩
      · rw [nftSetApprovalForAll_ok_iff] at hop
        obtain ⟨-, hs⟩ := hop
        subst hs; exact ⟨rfl, rfl⟩
      · rw [createArtistListing_ok_iff] at hop
        obtain ⟨-, -, hout⟩ := hop
        injection hout with hs hr
        subst hs; exact ⟨rfl, rfl⟩
      · rw [purchaseArtistDesign_ok_iff] at hop
        obtain ⟨-, -, -, -, hout⟩ := hop
        injection hout with hs hr
        subst hs; exact ⟨rfl, rfl⟩
      · rw [cancelArtistListing_ok_iff] at hop
        obtain ⟨-, -, hs⟩ := hop
        subst hs; exact ⟨rfl, rfl⟩
      · rw [listGiftCard_ok_iff] at hop
        obtain ⟨-, -, -, -, hout⟩ := hop
        injection hout with hs hr
        subst hs; exact ⟨rfl, rfl⟩
      · rw [purchaseGiftCard_ok_iff] at hop
        obtain ⟨-, -, -, -, -, -, hs⟩ := hop
        subst hs; exact ⟨rfl, rfl⟩
      · rw [cancelGiftCardListing_ok_iff] at hop
        obtain ⟨-, -, -, -, hs⟩ := hop
        subst hs; exact ⟨rfl, rfl⟩
  · intro s caller tokenId s' h
    rw [liquidate_ok_iff] at h
    obtain ⟨-, -, -, -, hs⟩ := h
    subst hs
    simp [getVaultContents, Function.update_same]
  · intro s c hm
    rcases hstep : step s c with e | s'
    · rw [exec_of_step_error hstep]
    · rw [exec_of_step_ok hstep]
      obtain ⟨-, -, -, hc⟩ := step_ok_inversion s c s' hstep
      rcases hc with ⟨caller, uri, tok, amt, r, hceq, hop⟩ | ⟨caller, tokenId, hceq, hop⟩ |
        ⟨caller, frm, dst, tokenId, hceq, hop⟩ | ⟨caller, dst, tokenId, hceq, hop⟩ |
        ⟨caller, op, approved, hceq, hop⟩ | ⟨caller, hsh, price, r, hceq, hop⟩ |
        ⟨caller, value, i, r, hceq, hop⟩ | ⟨caller, i, hceq, hop⟩ |
        ⟨caller, tokenId, price, r, hceq, hop⟩ | ⟨caller, value, i, hceq, hop⟩ |
        ⟨caller, i, hceq, hop⟩
      · subst hceq; simp [Call.isMarketOp] at hm
      · subst hceq; simp [Call.isMarketOp] at hm
      · subst hceq; simp [Call.isMarketOp] at hm
      · subst hceq; simp [Call.isMarketOp] at hm
      · subst hceq; simp [Call.isMarketOp] at hm
      · rw [createArtistListing_ok_iff] at hop
        obtain ⟨-, -, hout⟩ := hop
        injection hout with hs hr
        subst hs; rfl
      · rw [purchaseArtistDesign_ok_iff] at hop
        obtain ⟨-, -, -, -, hout⟩ := hop
        injection hout with hs hr
        subst hs; rfl
      · rw [cancelArtistListing_ok_iff] at hop
        obtain ⟨-, -, hs⟩ := hop
        subst hs; rfl
      · rw [listGiftCard_ok_iff] at hop
        obtain ⟨-, -, -, -, hout⟩ := hop
        injection hout with hs hr
        subst hs; rfl
      · rw [purchaseGiftCard_ok_iff] at hop
        obtain ⟨-, -, -, -, -, -, hs⟩ := hop
        subst hs; rfl
      · rw [cancelGiftCardListing_ok_iff] at hop
        obtain ⟨-, -, -, -, hs⟩ := hop
        subst hs; rfl

/-- C5 witness: liquidating token 0 leaves its stored amount at 100 (not
zeroed), and the resale listing operation leaves the vault table
untouched. -/
theorem vault_contents_immutable_witness :
    ((exec stMint (.liquidate 10 0)).vaults 0).amount = (stMint.vaults 0).amount ∧
    getVaultContents stLiq 0 = ⟨5, 100, true⟩ ∧
    (exec stAppr (.listGiftCard 10 0 7)).vaults = stAppr.vaults := by
  refine ⟨(vault_contents_immutable.1 stMint (.liquidate 10 0) 0 (by decide)).2,
    ?_, vault_contents_immutable.2.2 stAppr (.listGiftCard 10 0 7) trivial⟩
  exact vault_contents_immutable.2.1 stMint 10 0 stLiq rfl

/-! ## Claim C6 -/

/-- One transaction never reactivates a deactivated listing and never
shrinks a listing counter. -/
theorem exec_listing_monotone (s : ChainState) (c : Call) :
    s.artistListingCounter ≤ (exec s c).artistListingCounter ∧
    s.giftCardListingCounter ≤ (exec s c).giftCardListingCounter ∧
    (∀ i, i < s.artistListingCounter → (s.artistListings i).active = false →
      ((exec s c).artistListings i).active = false) ∧
    (∀ i, i < s.giftCardListingCounter → (s.giftCardListings i).active = false →
      ((exec s c).giftCardListings i).active = false) := by
  rcases hstep : step s c with e | s'
  · rw [exec_of_step_error hstep]
    exact ⟨le_rfl, le_rfl, fun _ _ h => h, fun _ _ h => h⟩
  · rw [exec_of_step_ok hstep]
    obtain ⟨-, -, -, hc⟩ := step_ok_inversion s c s' hstep
    rcases hc with ⟨caller, uri, tok, amt, r, -, hop⟩ | ⟨caller, tokenId, -, hop⟩ |
      ⟨caller, frm, dst, tokenId, -, hop⟩ | ⟨caller, dst, tokenId, -, hop⟩ |
      ⟨caller, op, approved, -, hop⟩ | ⟨caller, hsh, price, r, -, hop⟩ |
      ⟨caller, value, i0, r, -, hop⟩ | ⟨caller, i0, -, hop⟩ |
      ⟨caller, tokenId, price, r, -, hop⟩ | ⟨caller, value, i0, -, hop⟩ |
      ⟨caller, i0, -, hop⟩
    · rw [createGiftCard_ok_iff] at hop
      obtain ⟨-, -, -, -, -, -, hout⟩ := hop
      injection hout with hs hr
      subst hs
      exact ⟨le_rfl, le_rfl, fun _ _ h => h, fun _ _ h => h⟩
    · rw [liquidate_ok_iff] at hop
      obtain ⟨-, -, -, -, hs⟩ := hop
      subst hs
      exact ⟨le_rfl, le_rfl, fun _ _ h => h, fun _ _ h => h⟩
    · rw [nftTransferFrom_ok_iff] at hop
      obtain ⟨-, -, -, hs⟩ := hop
      subst hs
      exact ⟨le_rfl, le_rfl, fun _ _ h => h, fun _ _ h => h⟩
    · rw [nftApprove_ok_iff] at hop
      obtain ⟨-, -, hs⟩ := hop
      subst hs
      exact ⟨le_rfl, le_rfl, fun _ _ h => h, fun _ _ h => h⟩
    · rw [nftSetApprovalForAll_ok_iff] at hop
      obtain ⟨-, hs⟩ := hop
      subst hs
      exact ⟨le_rfl, le_rfl, fun _ _ h => h, fun _ _ h => h⟩
    · rw [createArtistListing_ok_iff] at hop
      obtain ⟨-, -, hout⟩ := hop
      injection hout with hs hr
      subst hs
      refine ⟨Nat.le_succ _, le_rfl, ?_, fun _ _ h => h⟩
      intro i hi hin
      have hne : i ≠ s.artistListingCounter := by omega
      simpa [Function.update_apply, hne] using hin
    · rw [purchaseArtistDesign_ok_iff] at hop
      obtain ⟨-, -, -, -, hout⟩ := hop
      injection hout with hs hr
      subst hs
      refine ⟨le_rfl, le_rfl, ?_, fun _ _ h => h⟩
      intro i hi hin
      by_cases he : i = i0 <;> simp [Function.update_apply, he, deactivateArtist, hin]
    · rw [cancelArtistListing_ok_iff] at hop
      obtain ⟨-, -, hs⟩ := hop
      subst hs
      refine ⟨le_rfl, le_rfl, ?_, fun _ _ h => h⟩
      intro i hi hin
      by_cases he : i = i0 <;> simp [Function.update_apply, he, deactivateArtist, hin]
    · rw [listGiftCard_ok_iff] at hop
      obtain ⟨-, -, -, -, hout⟩ := hop
      injection hout with hs hr
      subst hs
      refine ⟨le_rfl, Nat.le_succ _, fun _ _ h => h, ?_⟩
      intro i hi hin
      have hne : i ≠ s.giftCardListingCounter := by omega
      simpa [Function.update_apply, hne] using hin
    · rw [purchaseGiftCard_ok_iff] at hop
      obtain ⟨-, -, -, -, -, -, hs⟩ := hop
      subst hs
      refine ⟨le_rfl, le_rfl, fun _ _ h => h, ?_⟩
      intro i hi hin
      by_cases he : i = i0 <;> simp [Function.update_apply, he, deactivateGiftCard, hin]
    · rw [cancelGiftCardListing_ok_iff] at hop
      obtain ⟨-, -, -, -, hs⟩ := hop
      subst hs
      refine ⟨le_rfl, le_rfl, fun _ _ h => h, ?_⟩
      intro i hi hin
      by_cases he : i = i0 <;> simp [Function.update_apply, he, deactivateGiftCard, hin]

/-- C6: the terminal property of deactivation.  For every created listing
(artist or gift-card) whose `active` flag is false, no sequence of
transactions can ever set it back to true: fresh listings are only created
at fresh sequential ids and every other write to `active` sets it to
false. -/
theorem listing_deactivation_terminal (s : ChainState) (cs : List Call) (i : Nat) :
    (i < s.artistListingCounter → (s.artistListings i).active = false →
      ((execList s cs).artistListings i).active = false) ∧
    (i < s.giftCardListingCounter → (s.giftCardListings i).active = false →
      ((execList s cs).giftCardListings i).active = false) := by
  induction cs generalizing s with
  | nil => exact ⟨fun _ h => h, fun _ h => h⟩
  | cons c cs ih =>
    simp only [execList, List.foldl_cons]
    obtain ⟨hm1, hm2, hp1, hp2⟩ := exec_listing_monotone s c
    constructor
    · intro hi hin
      have h1 := (ih (exec s c)).1 (lt_of_lt_of_le hi hm1) (hp1 i hi hin)
      simpa [execList] using h1
    · intro hi hin
      have h2 := (ih (exec s c)).2 (lt_of_lt_of_le hi hm2) (hp2 i hi hin)
      simpa [execList] using h2

/-- Address 20 cancels its artwork listing 0. -/
def stArtCancel : ChainState := exec stArt (.cancelArtistListing 20 0)

/-- Address 10 cancels its gift-card resale listing 0 (custody returns). -/
def stListCancel : ChainState := exec stList (.cancelGiftCardListing 10 0)

/-- C6 witness: after cancelling, the listings stay inactive across a
further batch of transactions (purchase attempts, fresh listings, a new
resale cycle). -/
theorem listing_deactivation_terminal_witness :
    ((execList stArtCancel
        [.purchaseArtistDesign 11 9 0, .createArtistListing 21 "w" 4,
         .cancelArtistListing 20 0]).artistListings 0).active = false ∧
    ((execList stListCancel
        [.purchaseGiftCard 11 9 0, .nftApprove 10 marketAddr 0,
         .listGiftCard 10 0 9]).giftCardListings 0).active = false :=
  ⟨(listing_deactivation_terminal stArtCancel
      [.purchaseArtistDesign 11 9 0, .createArtistListing 21 "w" 4,
       .cancelArtistListing 20 0] 0).1 (by decide) (by decide),
   (listing_deactivation_terminal stListCancel
      [.purchaseGiftCard 11 9 0, .nftApprove 10 marketAddr 0,
       .listGiftCard 10 0 9] 0).2 (by decide) (by decide)⟩

/-! ## The inductive invariant of reachable states -/

/-- Facts preserved by every transaction from deployment: token ids below
the counter, the marketplace (and the zero address) never grant operator
approvals, unminted tokens carry no approval and an empty vault, every
active resale listing escrows its token with the marketplace with a
cleared approval, active resale listings reference pairwise distinct
tokens, and listing slots beyond the counter are untouched. -/
structure Inv (s : ChainState) : Prop where
  ownerLt : ∀ t, s.nftOwner t ≠ 0 → t < s.tokenIdCounter
  marketNoOperator : ∀ a, s.nftOperator (marketAddr, a) = false
  zeroNoOperator : ∀ a, s.nftOperator (0, a) = false
  approvalUnminted : ∀ t, s.nftOwner t = 0 → s.nftTokenApproval t = 0
  vaultUnminted : ∀ t, s.nftOwner t = 0 → s.vaults t = ⟨0, 0, false⟩
  escrow : ∀ i, i < s.giftCardListingCounter →
    (s.giftCardListings i).active = true →
    s.nftOwner (s.giftCardListings i).tokenId = marketAddr ∧
    s.nftTokenApproval (s.giftCardListings i).tokenId = 0
  distinctTokens : ∀ i j, i < s.giftCardListingCounter →
    j < s.giftCardListingCounter → i ≠ j →
    (s.giftCardListings i).active = true →
    (s.giftCardListings j).active = true →
    (s.giftCardListings i).tokenId ≠ (s.giftCardListings j).tokenId
  gcBeyond : ∀ i, s.giftCardListingCounter ≤ i →
    s.giftCardListings i = ⟨0, 0, 0, 0, false⟩

/-- The invariant holds at deployment. -/
theorem inv_init {s : ChainState} (h : InitState s) : Inv s := by
  obtain ⟨h1, h2, h3, h4, h5, h6, h7, h8, h9, h10⟩ := h
  constructor
  · intro t ht; rw [h1] at ht; simp at ht
  · intro a; rw [h3]
  · intro a; rw [h3]
  · intro t ht; rw [h2]
  · intro t ht; rw [h4]
  · intro i hi; rw [h9] at hi; omega
  · intro i j hi hj; rw [h9] at hi; omega
  · intro i hi; rw [h7]

/-- One successful transaction preserves the invariant. -/
theorem inv_step {s : ChainState} {c : Call} {s' : ChainState}
    (h : Inv s) (hstep : step s c = .ok s') : Inv s' := by
  obtain ⟨hc0, hc1, hc2, hc⟩ := step_ok_inversion s c s' hstep
  rcases hc with ⟨caller, uri, tok, amt, r, hceq, hop⟩ | ⟨caller, tokenId, hceq, hop⟩ |
    ⟨caller, frm, dst, tokenId, hceq, hop⟩ | ⟨caller, dst, tokenId, hceq, hop⟩ |
    ⟨caller, op, approved, hceq, hop⟩ | ⟨caller, hsh, price, r, hceq, hop⟩ |
    ⟨caller, value, i0, r, hceq, hop⟩ | ⟨caller, i0, hceq, hop⟩ |
    ⟨caller, tokenId, price, r, hceq, hop⟩ | ⟨caller, value, i0, hceq, hop⟩ |
    ⟨caller, i0, hceq, hop⟩
  · -- createGiftCard
    subst hceq
    simp only [Call.caller] at hc0 hc1 hc2
    rw [createGiftCard_ok_iff] at hop
    obtain ⟨htok, hamt, hbal, hal, hc0c, hOwn0, hout⟩ := hop
    injection hout with hs hr
    have hO : s'.nftOwner = Function.update s.nftOwner s.tokenIdCounter caller := by
      rw [hs]
    have hA : s'.nftTokenApproval = s.nftTokenApproval := by rw [hs]
    have hP : s'.nftOperator = s.nftOperator := by rw [hs]
    have hV : s'.vaults = Function.update s.vaults s.tokenIdCounter
        ⟨tok, amt, false⟩ := by rw [hs]
    have hC : s'.tokenIdCounter = s.tokenIdCounter + 1 := by rw [hs]
    have hG : s'.giftCardListings = s.giftCardListings := by rw [hs]
    have hN : s'.giftCardListingCounter = s.giftCardListingCounter := by rw [hs]
    constructor
    · rw [hO, hC]
      intro t ht
      rw [Function.update_apply] at ht
      by_cases he : t = s.tokenIdCounter
      · omega
      · rw [if_neg he] at ht
        have := h.ownerLt t ht
        omega
    · rw [hP]; exact h.marketNoOperator
    · rw [hP]; exact h.zeroNoOperator
    · rw [hO, hA]
      intro t ht
      rw [Function.update_apply] at ht
      by_cases he : t = s.tokenIdCounter
      · rw [if_pos he] at ht; exact absurd ht hc0c
      · rw [if_neg he] at ht; exact h.approvalUnminted t ht
    · rw [hO, hV]
      intro t ht
      rw [Function.update_apply] at ht
      by_cases he : t = s.tokenIdCounter
      · rw [if_pos he] at ht; exact absurd ht hc0c
      · rw [if_neg he] at ht
        rw [Function.update_apply, if_neg he]
        exact h.vaultUnminted t ht
    · rw [hG, hN, hO, hA]
      intro i hi hact
      obtain ⟨hom, hap⟩ := h.escrow i hi hact
      have hne : (s.giftCardListings i).tokenId ≠ s.tokenIdCounter := by
        intro he
        rw [he, hOwn0] at hom
        exact absurd hom (by decide)
      rw [Function.update_apply, if_neg hne]
      exact ⟨hom, hap⟩
    · rw [hG, hN]; exact h.distinctTokens
    · rw [hG, hN]; exact h.gcBeyond
  · -- liquidate
    subst hceq
    simp only [Call.caller] at hc0 hc1 hc2
    rw [liquidate_ok_iff] at hop
    obtain ⟨hown, hc0c, hliq, hble, hs⟩ := hop
    have hO : s'.nftOwner = s.nftOwner := by rw [hs]
    have hA : s'.nftTokenApproval = s.nftTokenApproval := by rw [hs]
    have hP : s'.nftOperator = s.nftOperator := by rw [hs]
    have hV : s'.vaults = Function.update s.vaults tokenId
        ⟨(s.vaults tokenId).tokenAddress, (s.vaults tokenId).amount, true⟩ := by
      rw [hs]
    have hC : s'.tokenIdCounter = s.tokenIdCounter := by rw [hs]
    have hG : s'.giftCardListings = s.giftCardListings := by rw [hs]
    have hN : s'.giftCardListingCounter = s.giftCardListingCounter := by rw [hs]
    constructor
    · rw [hO, hC]; exact h.ownerLt
    · rw [hP]; exact h.marketNoOperator
    · rw [hP]; exact h.zeroNoOperator
    · rw [hO, hA]; exact h.approvalUnminted
    · rw [hO, hV]
      intro t ht
      have hne : t ≠ tokenId := by
        intro he; rw [he, hown] at ht; exact hc0c ht
      rw [Function.update_apply, if_neg hne]
      exact h.vaultUnminted t ht
    · rw [hG, hN, hO, hA]; exact h.escrow
    · rw [hG, hN]; exact h.distinctTokens
    · rw [hG, hN]; exact h.gcBeyond
  · -- nftTransferFrom
    subst hceq
    simp only [Call.caller] at hc0 hc1 hc2
    rw [nftTransferFrom_ok_iff] at hop
    obtain ⟨hdst, hauth, hfrm, hs⟩ := hop
    have hO : s'.nftOwner = Function.update s.nftOwner tokenId dst := by rw [hs]
    have hA : s'.nftTokenApproval = Function.update s.nftTokenApproval tokenId 0 := by
      rw [hs]
    have hP : s'.nftOperator = s.nftOperator := by rw [hs]
    have hV : s'.vaults = s.vaults := by rw [hs]
    have hC : s'.tokenIdCounter = s.tokenIdCounter := by rw [hs]
    have hG : s'.giftCardListings = s.giftCardListings := by rw [hs]
    have hN : s'.giftCardListingCounter = s.giftCardListingCounter := by rw [hs]
    have hOwnNz : s.nftOwner tokenId ≠ 0 := by
      intro hz
      rw [hz] at hauth
      simp [nftIsAuthorized, h.zeroNoOperator, h.approvalUnminted tokenId hz,
        hc0, Ne.symm hc0] at hauth
    have hNoEsc : ∀ i, i < s.giftCardListingCounter →
        (s.giftCardListings i).active = true →
        (s.giftCardListings i).tokenId ≠ tokenId := by
      intro i hi hact heq
      obtain ⟨hom, hap⟩ := h.escrow i hi hact
      rw [heq] at hom hap
      rw [hom] at hauth
      simp [nftIsAuthorized, hap, h.marketNoOperator, hc0, Ne.symm hc2,
        Ne.symm hc0] at hauth
    constructor
    · rw [hO, hC]
      intro t ht
      rw [Function.update_apply] at ht
      by_cases he : t = tokenId
      · subst he; exact h.ownerLt _ hOwnNz
      · rw [if_neg he] at ht; exact h.ownerLt t ht
    · rw [hP]; exact h.marketNoOperator
    · rw [hP]; exact h.zeroNoOperator
    · rw [hO, hA]
      intro t ht
      rw [Function.update_apply] at ht
      by_cases he : t = tokenId
      · rw [if_pos he] at ht; exact absurd ht hdst
      · rw [if_neg he] at ht
        rw [Function.update_apply, if_neg he]
        exact h.approvalUnminted t ht
    · rw [hO, hV]
      intro t ht
      rw [Function.update_apply] at ht
      by_cases he : t = tokenId
      · rw [if_pos he] at ht; exact absurd ht hdst
      · rw [if_neg he] at ht; exact h.vaultUnminted t ht
    · rw [hG, hN, hO, hA]
      intro i hi hact
      obtain ⟨hom, hap⟩ := h.escrow i hi hact
      have hne := hNoEsc i hi hact
      rw [Function.update_apply, if_neg hne, Function.update_apply, if_neg hne]
      exact ⟨hom, hap⟩
    · rw [hG, hN]; exact h.distinctTokens
    · rw [hG, hN]; exact h.gcBeyond
  · -- nftApprove
    subst hceq
    simp only [Call.caller] at hc0 hc1 hc2
    rw [nftApprove_ok_iff] at hop
    obtain ⟨hOwnNz, hwho, hs⟩ := hop
    have hO : s'.nftOwner = s.nftOwner := by rw [hs]
    have hA : s'.nftTokenApproval = Function.update s.nftTokenApproval tokenId dst := by
      rw [hs]
    have hP : s'.nftOperator = s.nftOperator := by rw [hs]
    have hV : s'.vaults = s.vaults := by rw [hs]
    have hC : s'.tokenIdCounter = s.tokenIdCounter := by rw [hs]
    have hG : s'.giftCardListings = s.giftCardListings := by rw [hs]
    have hN : s'.giftCardListingCounter = s.giftCardListingCounter := by rw [hs]
    have hNoEsc : ∀ i, i < s.giftCardListingCounter →
        (s.giftCardListings i).active = true →
        (s.giftCardListings i).tokenId ≠ tokenId := by
      intro i hi hact heq
      obtain ⟨hom, -⟩ := h.escrow i hi hact
      rw [heq] at hom
      rcases hwho with hw | hw
      · rw [hom] at hw; exact hc2 hw.symm
      · rw [hom] at hw
        rw [h.marketNoOperator caller] at hw
        cases hw
    constructor
    · rw [hO, hC]; exact h.ownerLt
    · rw [hP]; exact h.marketNoOperator
    · rw [hP]; exact h.zeroNoOperator
    · rw [hO, hA]
      intro t ht
      have hne : t ≠ tokenId := by
        intro he; rw [he] at ht; exact hOwnNz ht
      rw [Function.update_apply, if_neg hne]
      exact h.approvalUnminted t ht
    · rw [hO, hV]; exact h.vaultUnminted
    · rw [hG, hN, hO, hA]
      intro i hi hact
      obtain ⟨hom, hap⟩ := h.escrow i hi hact
      rw [Function.update_apply, if_neg (hNoEsc i hi hact)]
      exact ⟨hom, hap⟩
    · rw [hG, hN]; exact h.distinctTokens
    · rw [hG, hN]; exact h.gcBeyond
  · -- nftSetApprovalForAll
    subst hceq
    simp only [Call.caller] at hc0 hc1 hc2
    rw [nftSetApprovalForAll_ok_iff] at hop
    obtain ⟨hopnz, hs⟩ := hop
    have hO : s'.nftOwner = s.nftOwner := by rw [hs]
    have hA : s'.nftTokenApproval = s.nftTokenApproval := by rw [hs]
    have hP : s'.nftOperator = Function.update s.nftOperator (caller, op) approved := by
      rw [hs]
    have hV : s'.vaults = s.vaults := by rw [hs]
    have hC : s'.tokenIdCounter = s.tokenIdCounter := by rw [hs]
    have hG : s'.giftCardListings = s.giftCardListings := by rw [hs]
    have hN : s'.giftCardListingCounter = s.giftCardListingCounter := by rw [hs]
    constructor
    · rw [hO, hC]; exact h.ownerLt
    · rw [hP]
      intro a
      have hne : (marketAddr, a) ≠ (caller, op) := by
        intro he
        injection he with he1 he2
        exact hc2 he1.symm
      rw [Function.update_apply, if_neg hne]
      exact h.marketNoOperator a
    · rw [hP]
      intro a
      have hne : ((0 : Nat), a) ≠ (caller, op) := by
        intro he
        injection he with he1 he2
        exact hc0 he1.symm
      rw [Function.update_apply, if_neg hne]
      exact h.zeroNoOperator a
    · rw [hO, hA]; exact h.approvalUnminted
    · rw [hO, hV]; exact h.vaultUnminted
    · rw [hG, hN, hO, hA]; exact h.escrow
    · rw [hG, hN]; exact h.distinctTokens
    · rw [hG, hN]; exact h.gcBeyond
  · -- createArtistListing
    subst hceq
    rw [createArtistListing_ok_iff] at hop
    obtain ⟨-, -, hout⟩ := hop
    injection hout with hs hr
    exact ⟨by rw [hs]; exact h.ownerLt, by rw [hs]; exact h.marketNoOperator,
      by rw [hs]; exact h.zeroNoOperator, by rw [hs]; exact h.approvalUnminted,
      by rw [hs]; exact h.vaultUnminted, by rw [hs]; exact h.escrow,
      by rw [hs]; exact h.distinctTokens, by rw [hs]; exact h.gcBeyond⟩
  · -- purchaseArtistDesign
    subst hceq
    rw [purchaseArtistDesign_ok_iff] at hop
    obtain ⟨-, -, -, -, hout⟩ := hop
    injection hout with hs hr
    exact ⟨by rw [hs]; exact h.ownerLt, by rw [hs]; exact h.marketNoOperator,
      by rw [hs]; exact h.zeroNoOperator, by rw [hs]; exact h.approvalUnminted,
      by rw [hs]; exact h.vaultUnminted, by rw [hs]; exact h.escrow,
      by rw [hs]; exact h.distinctTokens, by rw [hs]; exact h.gcBeyond⟩
  · -- cancelArtistListing
    subst hceq
    rw [cancelArtistListing_ok_iff] at hop
    obtain ⟨-, -, hs⟩ := hop
    exact ⟨by rw [hs]; exact h.ownerLt, by rw [hs]; exact h.marketNoOperator,
      by rw [hs]; exact h.zeroNoOperator, by rw [hs]; exact h.approvalUnminted,
      by rw [hs]; exact h.vaultUnminted, by rw [hs]; exact h.escrow,
      by rw [hs]; exact h.distinctTokens, by rw [hs]; exact h.gcBeyond⟩
  · -- listGiftCard
    subst hceq
    simp only [Call.caller] at hc0 hc1 hc2
    rw [listGiftCard_ok_iff] at hop
    obtain ⟨hown, hc0c, hprice, hap, hout⟩ := hop
    injection hout with hs hr
    have hO : s'.nftOwner = Function.update s.nftOwner tokenId marketAddr := by
      rw [hs]
    have hA : s'.nftTokenApproval = Function.update s.nftTokenApproval tokenId 0 := by
      rw [hs]
    have hP : s'.nftOperator = s.nftOperator := by rw [hs]
    have hV : s'.vaults = s.vaults := by rw [hs]
    have hC : s'.tokenIdCounter = s.tokenIdCounter := by rw [hs]
    have hG : s'.giftCardListings = Function.update s.giftCardListings
        s.giftCardListingCounter
        ⟨s.giftCardListingCounter, tokenId, caller, price, true⟩ := by rw [hs]
    have hN : s'.giftCardListingCounter = s.giftCardListingCounter + 1 := by rw [hs]
    have hNoEsc : ∀ i, i < s.giftCardListingCounter →
        (s.giftCardListings i).active = true →
        (s.giftCardListings i).tokenId ≠ tokenId := by
      intro i hi hact heq
      obtain ⟨hom, -⟩ := h.escrow i hi hact
      rw [heq, hown] at hom
      exact hc2 hom
    constructor
    · rw [hO, hC]
      intro t ht
      by_cases he : t = tokenId
      · subst he
        refine h.ownerLt _ ?_
        rw [hown]; exact hc0c
      · rw [Function.update_apply, if_neg he] at ht
        exact h.ownerLt t ht
    · rw [hP]; exact h.marketNoOperator
    · rw [hP]; exact h.zeroNoOperator
    · rw [hO, hA]
      intro t ht
      by_cases he : t = tokenId
      · rw [Function.update_apply, if_pos he] at ht
        exact absurd ht (by decide)
      · rw [Function.update_apply, if_neg he] at ht
        rw [Function.update_apply, if_neg he]
        exact h.approvalUnminted t ht
    · rw [hO, hV]
      intro t ht
      by_cases he : t = tokenId
      · rw [Function.update_apply, if_pos he] at ht
        exact absurd ht (by decide)
      · rw [Function.update_apply, if_neg he] at ht
        exact h.vaultUnminted t ht
    · rw [hG, hN, hO, hA]
      intro i hi hact
      by_cases he : i = s.giftCardListingCounter
      · subst he
        simp [Function.update_apply]
      · rw [Function.update_apply, if_neg he] at hact
        have hi2 : i < s.giftCardListingCounter := by omega
        obtain ⟨hom, hap2⟩ := h.escrow i hi2 hact
        have hne := hNoEsc i hi2 hact
        simp [Function.update_apply, he, hne, hom, hap2]
    · rw [hG, hN]
      intro i j hi hj hij hacti hactj
      by_cases hei : i = s.giftCardListingCounter
      · subst hei
        have hej : j ≠ s.giftCardListingCounter := fun he => hij he.symm
        have hj2 : j < s.giftCardListingCounter := by omega
        have hactj2 : (s.giftCardListings j).active = true := by
          simpa [Function.update_apply, hej] using hactj
        simp [Function.update_apply, hej]
        intro he2
        exact hNoEsc j hj2 hactj2 (by omega)
      · by_cases hej : j = s.giftCardListingCounter
        · subst hej
          have hi2 : i < s.giftCardListingCounter := by omega
          have hacti2 : (s.giftCardListings i).active = true := by
            simpa [Function.update_apply, hei] using hacti
          simp [Function.update_apply, hei]
          intro he2
          exact hNoEsc i hi2 hacti2 (by omega)
        · have hi2 : i < s.giftCardListingCounter := by omega
          have hj2 : j < s.giftCardListingCounter := by omega
          have hacti2 : (s.giftCardListings i).active = true := by
            simpa [Function.update_apply, hei] using hacti
          have hactj2 : (s.giftCardListings j).active = true := by
            simpa [Function.update_apply, hej] using hactj
          simp [Function.update_apply, hei, hej]
          intro he2
          exact absurd (by omega : (s.giftCardListings i).tokenId
              = (s.giftCardListings j).tokenId)
            (h.distinctTokens i j hi2 hj2 hij hacti2 hactj2)
    · rw [hG, hN]
      intro i hi
      have hne : i ≠ s.giftCardListingCounter := by omega
      rw [Function.update_apply, if_neg hne]
      exact h.gcBeyond i (by omega)
  · -- purchaseGiftCard
    subst hceq
    simp only [Call.caller] at hc0 hc1 hc2
    rw [purchaseGiftCard_ok_iff] at hop
    obtain ⟨hv, hact0, hpr, hc0c, hom0, hacc, hs⟩ := hop
    have hi0 : i0 < s.giftCardListingCounter := by
      by_contra hge
      have hd := h.gcBeyond i0 (by omega)
      simp [hd] at hact0
    have hO : s'.nftOwner = Function.update s.nftOwner
        (s.giftCardListings i0).tokenId caller := by rw [hs]
    have hA : s'.nftTokenApproval = Function.update s.nftTokenApproval
        (s.giftCardListings i0).tokenId 0 := by rw [hs]
    have hP : s'.nftOperator = s.nftOperator := by rw [hs]
    have hV : s'.vaults = s.vaults := by rw [hs]
    have hC : s'.tokenIdCounter = s.tokenIdCounter := by rw [hs]
    have hG : s'.giftCardListings = Function.update s.giftCardListings i0
        (deactivateGiftCard (s.giftCardListings i0)) := by rw [hs]
    have hN : s'.giftCardListingCounter = s.giftCardListingCounter := by rw [hs]
    constructor
    · rw [hO, hC]
      intro t ht
      by_cases he : t = (s.giftCardListings i0).tokenId
      · subst he
        refine h.ownerLt _ ?_
        rw [hom0]; decide
      · rw [Function.update_apply, if_neg he] at ht
        exact h.ownerLt t ht
    · rw [hP]; exact h.marketNoOperator
    · rw [hP]; exact h.zeroNoOperator
    · rw [hO, hA]
      intro t ht
      by_cases he : t = (s.giftCardListings i0).tokenId
      · rw [Function.update_apply, if_pos he] at ht
        exact absurd ht hc0c
      · rw [Function.update_apply, if_neg he] at ht
        rw [Function.update_apply, if_neg he]
        exact h.approvalUnminted t ht
    · rw [hO, hV]
      intro t ht
      by_cases he : t = (s.giftCardListings i0).tokenId
      · rw [Function.update_apply, if_pos he] at ht
        exact absurd ht hc0c
      · rw [Function.update_apply, if_neg he] at ht
        exact h.vaultUnminted t ht
    · rw [hG, hN, hO, hA]
      intro j hj hactj
      by_cases hej : j = i0
      · subst hej
        simp [Function.update_same, deactivateGiftCard] at hactj
      · rw [Function.update_apply, if_neg hej] at hactj
        obtain ⟨homj, hapj⟩ := h.escrow j hj hactj
        have hne : (s.giftCardListings j).tokenId ≠ (s.giftCardListings i0).tokenId :=
          h.distinctTokens j i0 hj hi0 hej hactj hact0
        simp [Function.update_apply, hej, hne, homj, hapj]
    · rw [hG, hN]
      intro i j hi hj hij hacti hactj
      have hei : i ≠ i0 := by
        intro he; subst he
        simp [Function.update_same, deactivateGiftCard] at hacti
      have hej : j ≠ i0 := by
        intro he; subst he
        simp [Function.update_same, deactivateGiftCard] at hactj
      have hacti2 : (s.giftCardListings i).active = true := by
        simpa [Function.update_apply, hei] using hacti
      have hactj2 : (s.giftCardListings j).active = true := by
        simpa [Function.update_apply, hej] using hactj
      simp [Function.update_apply, hei, hej]
      intro he2
      exact absurd (by omega : (s.giftCardListings i).tokenId
          = (s.giftCardListings j).tokenId)
        (h.distinctTokens i j hi hj hij hacti2 hactj2)
    · rw [hG, hN]
      intro k hk
      have hne : k ≠ i0 := by omega
      rw [Function.update_apply, if_neg hne]
      exact h.gcBeyond k hk
  · -- cancelGiftCardListing
    subst hceq
    simp only [Call.caller] at hc0 hc1 hc2
    rw [cancelGiftCardListing_ok_iff] at hop
    obtain ⟨hsell, hact0, hc0c, hom0, hs⟩ := hop
    have hi0 : i0 < s.giftCardListingCounter := by
      by_contra hge
      have hd := h.gcBeyond i0 (by omega)
      simp [hd] at hact0
    have hO : s'.nftOwner = Function.update s.nftOwner
        (s.giftCardListings i0).tokenId caller := by rw [hs]
    have hA : s'.nftTokenApproval = Function.update s.nftTokenApproval
        (s.giftCardListings i0).tokenId 0 := by rw [hs]
    have hP : s'.nftOperator = s.nftOperator := by rw [hs]
    have hV : s'.vaults = s.vaults := by rw [hs]
    have hC : s'.tokenIdCounter = s.tokenIdCounter := by rw [hs]
    have hG : s'.giftCardListings = Function.update s.giftCardListings i0
        (deactivateGiftCard (s.giftCardListings i0)) := by rw [hs]
    have hN : s'.giftCardListingCounter = s.giftCardListingCounter := by rw [hs]
    constructor
    · rw [hO, hC]
      intro t ht
      by_cases he : t = (s.giftCardListings i0).tokenId
      · subst he
        refine h.ownerLt _ ?_
        rw [hom0]; decide
      · rw [Function.update_apply, if_neg he] at ht
        exact h.ownerLt t ht
    · rw [hP]; exact h.marketNoOperator
    · rw [hP]; exact h.zeroNoOperator
    · rw [hO, hA]
      intro t ht
      by_cases he : t = (s.giftCardListings i0).tokenId
      · rw [Function.update_apply, if_pos he] at ht
        exact absurd ht hc0c
      · rw [Function.update_apply, if_neg he] at ht
        rw [Function.update_apply, if_neg he]
        exact h.approvalUnminted t ht
    · rw [hO, hV]
      intro t ht
      by_cases he : t = (s.giftCardListings i0).tokenId
      · rw [Function.update_apply, if_pos he] at ht
        exact absurd ht hc0c
      · rw [Function.update_apply, if_neg he] at ht
        exact h.vaultUnminted t ht
    · rw [hG, hN, hO, hA]
      intro j hj hactj
      by_cases hej : j = i0
      · subst hej
        simp [Function.update_same, deactivateGiftCard] at hactj
      · rw [Function.update_apply, if_neg hej] at hactj
        obtain ⟨homj, hapj⟩ := h.escrow j hj hactj
        have hne : (s.giftCardListings j).tokenId ≠ (s.giftCardListings i0).tokenId :=
          h.distinctTokens j i0 hj hi0 hej hactj hact0
        simp [Function.update_apply, hej, hne, homj, hapj]
    · rw [hG, hN]
      intro i j hi hj hij hacti hactj
      have hei : i ≠ i0 := by
        intro he; subst he
        simp [Function.update_same, deactivateGiftCard] at hacti
      have hej : j ≠ i0 := by
        intro he; subst he
        simp [Function.update_same, deactivateGiftCard] at hactj
      have hacti2 : (s.giftCardListings i).active = true := by
        simpa [Function.update_apply, hei] using hacti
      have hactj2 : (s.giftCardListings j).active = true := by
        simpa [Function.update_apply, hej] using hactj
      simp [Function.update_apply, hei, hej]
      intro he2
      exact absurd (by omega : (s.giftCardListings i).tokenId
          = (s.giftCardListings j).tokenId)
        (h.distinctTokens i j hi hj hij hacti2 hactj2)
    · rw [hG, hN]
      intro k hk
      have hne : k ≠ i0 := by omega
      rw [Function.update_apply, if_neg hne]
      exact h.gcBeyond k hk

/-- The invariant is preserved by every transaction (a reverting one
leaves the state unchanged). -/
theorem inv_exec {s : ChainState} (h : Inv s) (c : Call) : Inv (exec s c) := by
  rcases hstep : step s c with e | s'
  · rw [exec_of_step_error hstep]; exact h
  · rw [exec_of_step_ok hstep]; exact inv_step h hstep

/-- Every reachable state satisfies the invariant. -/
theorem inv_of_reachable {s : ChainState} (h : Reachable s) : Inv s := by
  induction h with
  | init s hs => exact inv_init hs
  | step s c hr ih => exact inv_exec ih c

/-! ## Claim C4 -/

/-- C4: escrow invariant.  In every reachable state, every active resale
listing's token is owned by the marketplace contract itself; a successful
purchase deactivates the listing and hands ownership to the buyer in the
same transaction, and a successful cancellation deactivates the listing
and hands ownership back to the seller in the same transaction. -/
theorem resale_escrow_custody :
    (∀ s, Reachable s → ∀ i, i < s.giftCardListingCounter →
      (s.giftCardListings i).active = true →
      s.nftOwner (s.giftCardListings i).tokenId = marketAddr) ∧
    (∀ (s : ChainState) (caller value i : Nat) (s' : ChainState),
      purchaseGiftCard s caller value i = .ok s' →
      (s'.giftCardListings i).active = false ∧
      s'.nftOwner (s.giftCardListings i).tokenId = caller) ∧
    (∀ (s : ChainState) (caller i : Nat) (s' : ChainState),
      cancelGiftCardListing s caller i = .ok s' →
      (s'.giftCardListings i).active = false ∧
      s'.nftOwner (s.giftCardListings i).tokenId
        = (s.giftCardListings i).seller) := by
  refine ⟨?_, ?_, ?_⟩
  · intro s hr i hi hact
    exact ((inv_of_reachable hr).escrow i hi hact).1
  · intro s caller value i s' hok
    rw [purchaseGiftCard_ok_iff] at hok
    obtain ⟨-, -, -, -, -, -, hs⟩ := hok
    subst hs
    constructor
    · simp [Function.update_same, deactivateGiftCard]
    · simp [Function.update_same]
  · intro s caller i s' hok
    rw [cancelGiftCardListing_ok_iff] at hok
    obtain ⟨hsell, -, -, -, hs⟩ := hok
    subst hs
    constructor
    · simp [Function.update_same, deactivateGiftCard]
    · simp [Function.update_same, hsell]

/-- C4 witness: in the reachable state where token 0 is listed for resale
(listing 0), the marketplace owns token 0; cancelling returns ownership
to the seller (address 10) and deactivates the listing. -/
theorem resale_escrow_custody_witness :
    stList.nftOwner (stList.giftCardListings 0).tokenId = marketAddr ∧
    (stListCancel.giftCardListings 0).active = false ∧
    stListCancel.nftOwner (stList.giftCardListings 0).tokenId
      = (stList.giftCardListings 0).seller := by
  have h0 : Reachable witInit :=
    .init witInit ⟨rfl, rfl, rfl, rfl, rfl, rfl, rfl, rfl, rfl, rfl⟩
  have hreach : Reachable stList :=
    .step stAppr (.listGiftCard 10 0 7)
      (.step stMint (.nftApprove 10 marketAddr 0)
        (.step witInit (.createGiftCard 10 "u" 5 100) h0))
  have hcancel := resale_escrow_custody.2.2 stList 10 0 stListCancel rfl
  exact ⟨resale_escrow_custody.1 stList hreach 0 (by decide) (by decide),
    hcancel.1, hcancel.2⟩

/-! ## Claim C9 -/

/-- C9 (amended): both getters are side-effect-free reads.
`getVaultContents` is total: for an id that was never minted (in any
reachable state) it returns the zero-value record rather than failing.
`getMetadataURI`, however, is NOT total: it returns the stored URI for a
minted id but fails with `ERC721NonexistentToken` for an unknown id
(OpenZeppelin `tokenURI` reverts for unminted tokens). -/
theorem getter_totality :
    (∀ (s : ChainState) (t : Nat), Reachable s → s.nftOwner t = 0 →
      getVaultContents s t = ⟨0, 0, false⟩ ∧
      getMetadataURI s t = .error .ERC721NonexistentToken) ∧
    (∀ (s : ChainState) (t : Nat), s.nftOwner t ≠ 0 →
      getMetadataURI s t = .ok (s.nftTokenURI t)) := by
  constructor
  · intro s t hr hz
    refine ⟨(inv_of_reachable hr).vaultUnminted t hz, ?_⟩
    simp [getMetadataURI, hz]
  · intro s t hnz
    simp [getMetadataURI, hnz]

/-- C9 witness: on the deployment state the vault getter returns the
zero record for the unknown id 3 while the URI getter fails for it; on
the state with token 0 minted the URI getter returns the stored URI. -/
theorem getter_totality_witness :
    getVaultContents witInit 3 = ⟨0, 0, false⟩ ∧
    getMetadataURI witInit 3 = .error .ERC721NonexistentToken ∧
    getMetadataURI stMint 0 = .ok (stMint.nftTokenURI 0) := by
  have h0 : Reachable witInit :=
    .init witInit ⟨rfl, rfl, rfl, rfl, rfl, rfl, rfl, rfl, rfl, rfl⟩
  obtain ⟨h1, h2⟩ := getter_totality.1 witInit 3 h0 rfl
  exact ⟨h1, h2, getter_totality.2 stMint 0 (by decide)⟩

/-- C9 counterexample to the claim as stated: the claim says both getters
never fail for any id; `getMetadataURI` on the deployment state fails for
the unknown id 0 with `ERC721NonexistentToken` (OpenZeppelin
`ERC721URIStorage.tokenURI` reverts for an unminted token instead of
returning a zero value). -/
theorem getter_totality_counterexample :
    getMetadataURI witInit 0 = .error .ERC721NonexistentToken := rfl

end Crypt
